import Mathlib

/-!
Verification development for the reforge Blender-to-Defold exporter.

The Python sources under `reforge/` are shallowly embedded: pure string
builders become Lean functions on `String`, Python floats become exact
rationals (`ℚ`), and the exporter's file-system side effects become an
explicit list of primitive operations (`FsOp`) applied to a map from
paths to file contents.  Opaque external facilities (the glTF exporter,
the mathutils TRS decomposition, Blender's bake operator and the node
graph walks) are deterministic for a fixed scene and are carried as
fields of the embedded objects; each such field is documented at its
declaration.
-/

namespace Reforge

/-- Code points Python's `str.strip()` treats as whitespace. -/
def pySpaceCodes : List Nat :=
  [9, 10, 11, 12, 13, 28, 29, 30, 31, 32, 133, 160, 5760,
   8192, 8193, 8194, 8195, 8196, 8197, 8198, 8199, 8200, 8201, 8202,
   8232, 8233, 8239, 8287, 12288]

/-- Whether a character is whitespace for Python's `str.strip()`. -/
def pyIsSpace (c : Char) : Bool := pySpaceCodes.contains c.toNat

/-- Python `str.isalnum` restricted to the Latin-1 range, where it is exact:
ASCII digits and letters plus the Latin-1 letters, superscripts and vulgar
fractions.  Code points above U+00FF are treated as non-alphanumeric; Python
accepts many of those as well, so this model is a restriction, and every claim
is settled on inputs inside Latin-1 where the model agrees with Python. -/
def alnumCode (n : Nat) : Bool :=
  (48 ≤ n && n ≤ 57) || (65 ≤ n && n ≤ 90) || (97 ≤ n && n ≤ 122) ||
  (n == 170) || (n == 178) || (n == 179) || (n == 181) || (n == 185) || (n == 186) ||
  (188 ≤ n && n ≤ 190) || (192 ≤ n && n ≤ 214) || (216 ≤ n && n ≤ 246) ||
  (248 ≤ n && n ≤ 255)

/-- Character form of `alnumCode`, the model of Python `str.isalnum`. -/
def pyIsAlnum (c : Char) : Bool := alnumCode c.toNat

/-- Python `str.strip()` on a character list: drop whitespace at both ends. -/
def pyStrip (l : List Char) : List Char :=
  ((l.dropWhile pyIsSpace).reverse.dropWhile pyIsSpace).reverse

/-- Python `str.strip()` on strings (used by `_get_custom_prop_str` and the
collision group/mask readers in `export_core.py`). -/
def pyStripStr (s : String) : String := String.mk (pyStrip s.data)

/-- Characters `sanitize_id` keeps: alphanumerics, underscore, hyphen. -/
def sanitizeKeep (c : Char) : Bool := pyIsAlnum c || c == '_' || c == '-'

/-- reforge/utils.py `sanitize_id`: strip, replace spaces with underscores,
drop every character that is not alphanumeric or in "_-", and fall back to
"prototype" when the result is empty. -/
def sanitize_id (s : String) : String :=
  let t := ((pyStrip s.data).map fun c => if c = ' ' then '_' else c).filter sanitizeKeep
  if t.isEmpty then "prototype" else String.mk t

/-- Decimal digit character: 0 ↦ '0', …, 9 ↦ '9'. -/
def decDigitChar (d : Nat) : Char := Char.ofNat (48 + d)

/-- Decimal digits of a natural number, most significant first, prepended to
an accumulator; structural recursion on a fuel bound (any fuel above the
value itself is enough, since the value shrinks ten-fold per digit). -/
def decDigits : Nat → Nat → List Char → List Char
  | 0, _, acc => acc
  | fuel + 1, n, acc =>
    if n < 10 then decDigitChar (n % 10) :: acc
    else decDigits fuel (n / 10) (decDigitChar (n % 10) :: acc)

/-- Decimal digits of a natural number, most significant first (the digit
list is never empty: 0 renders as "0"). -/
def decRepr (n : Nat) : List Char := decDigits (n + 1) n []

/-- Python format `f"{n:03d}"` for a non-negative integer: the decimal digits
zero-padded on the left to a minimum width of three. -/
def pad3str (n : Nat) : String :=
  String.mk (List.replicate (3 - (decRepr n).length) '0' ++ decRepr n)

/-- Decimal digits of `n` zero-padded on the left to width `w`. -/
def decPad (n w : Nat) : List Char :=
  List.replicate (w - (decRepr n).length) '0' ++ decRepr n

/-- Negation of a rational, written through `mkRat` so that it evaluates
by integer arithmetic alone. -/
def ratNeg (x : ℚ) : ℚ := mkRat (-x.num) x.den

/-- Subtraction of rationals through `mkRat` (exact cross-multiplication). -/
def ratSub (x y : ℚ) : ℚ := mkRat (x.num * y.den - y.num * x.den) (x.den * y.den)

/-- Absolute value of a rational, by the sign of its numerator. -/
def ratAbs (x : ℚ) : ℚ := if x.num < 0 then ratNeg x else x

/-- Python fixed-point float formatting `f"{q:.df}"` on the exact rational
value: sign, integer digits, a point, `d` fraction digits, ties to even.
The rounded scaled magnitude `round(|q|*10^d)` is computed on the
numerator and denominator directly: for `scaled = |num| * 10^d`, the
quotient `scaled / den` with remainder `rem` rounds up exactly when
`2*rem > den`, and to the even quotient at a tie.  (The binary double
carries an exact rational value, on which Python's formatting performs
exactly this computation.) -/
def fmtFixed (d : Nat) (q : ℚ) : String :=
  let sign := if q.num < 0 then "-" else ""
  let scaled : Nat := q.num.natAbs * 10 ^ d
  let quot := scaled / q.den
  let rem := scaled % q.den
  let m : Nat :=
    if 2 * rem < q.den then quot
    else if q.den < 2 * rem then quot + 1
    else if quot % 2 = 0 then quot else quot + 1
  if d = 0 then sign ++ String.mk (decRepr m)
  else sign ++ String.mk (decRepr (m / 10 ^ d)) ++ "." ++ String.mk (decPad (m % 10 ^ d) d)

/-- Python `str(float)` (the default `f"{x}"` rendering) modelled on exact
rationals with a terminating decimal expansion of at most 17 digits: the
shortest fixed-point form, with at least one fraction digit (the reduced
denominator divides `10^k` exactly when the expansion terminates at `k`
digits).  Values whose expansion does not terminate within 17 digits
(which do not arise at the points where this development evaluates it)
fall back to 17-digit fixed formatting; Python's exponent notation for
extreme magnitudes is outside the embedding. -/
def reprFloat (q : ℚ) : String :=
  match (List.range 18).find? (fun k => 10 ^ k % q.den == 0) with
  | some k =>
    let sign := if q.num < 0 then "-" else ""
    let m : Nat := q.num.natAbs * (10 ^ k / q.den)
    if k = 0 then sign ++ String.mk (decRepr m) ++ ".0"
    else sign ++ String.mk (decRepr (m / 10 ^ k)) ++ "." ++ String.mk (decPad (m % 10 ^ k) k)
  | none => fmtFixed 17 q

/-- Python `str.replace("\\", "/")`, applied to every emitted project path. -/
def replaceBackslash (s : String) : String :=
  String.mk (s.data.map fun c => if c = '\\' then '/' else c)

/-- POSIX `os.path.join` for an absolute root and a relative tail. -/
def pjoin (a b : String) : String := a ++ "/" ++ b

/-- POSIX `os.path.basename`: the part after the last slash. -/
def basename (s : String) : String :=
  String.mk (s.data.reverse.takeWhile (fun c => c ≠ '/')).reverse

/-- Code-point lexicographic comparison of character lists, Python's `<`
on strings. -/
def chListLt : List Char → List Char → Bool
  | [], [] => false
  | [], _ :: _ => true
  | _ :: _, [] => false
  | a :: as, b :: bs =>
    if a.toNat < b.toNat then true
    else if b.toNat < a.toNat then false
    else chListLt as bs

/-- Python string `<`. -/
def strLtB (a b : String) : Bool := chListLt a.data b.data

/-- Insert a string into an ascending list, keeping existing equal keys first. -/
def insortStr (x : String) : List String → List String
  | [] => [x]
  | y :: ys => if strLtB x y then x :: y :: ys else y :: insortStr x ys

/-- Python `sorted` on strings (insertion sort; the keys sorted in this
development are distinct, so stability questions do not arise). -/
def sortStr (l : List String) : List String := l.foldr insortStr []

/-! ## File-system semantics

The exporter's file-system side effects: `safe_remove_file`,
`write_text_file` (and the glTF/texture/image writes), and the guarded
`if not os.path.isfile(abs_go): write_text_file(abs_go, ...)`.  A file
system is a map from absolute paths to file contents; the contents every
operation writes are computed from the scene and settings alone, never
read back from the file system, so a run is exactly the ordered list of
operations it performs. -/

/-- File system: contents by absolute path (`none` = no such file). -/
def FS : Type := String → Option String

/-- One file-system operation performed by the exporter. -/
inductive FsOp where
  /-- `safe_remove_file(path)`. -/
  | remove (path : String)
  /-- `write_text_file(path, content)` or a binary write of `content`. -/
  | fwrite (path content : String)
  /-- `if not os.path.isfile(path): write_text_file(path, content)`. -/
  | writeIfAbsent (path content : String)
deriving Repr, DecidableEq

/-- Apply one operation to the file system. -/
def applyOp (fs : FS) : FsOp → FS
  | .remove p => fun q => if q = p then none else fs q
  | .fwrite p c => fun q => if q = p then some c else fs q
  | .writeIfAbsent p c => fun q => if q = p then some ((fs p).getD c) else fs q

/-- Apply a run's operations in order. -/
def runFsOps (fs : FS) (ops : List FsOp) : FS := ops.foldl applyOp fs

/-- The path an operation touches. -/
def opPath : FsOp → String
  | .remove p => p
  | .fwrite p _ => p
  | .writeIfAbsent p _ => p

/-- Effect of one operation on the content stored at a fixed path `p`. -/
def opAt (p : String) (v : Option String) : FsOp → Option String
  | .remove q => if p = q then none else v
  | .fwrite q c => if p = q then some c else v
  | .writeIfAbsent q c => if p = q then some (v.getD c) else v

/-- Whether an operation is an unconditional write to path `p`. -/
def opWritesPath (p : String) : FsOp → Bool
  | .fwrite q _ => q == p
  | _ => false

/-! ## Data model

Read-only views of the Blender scene, as the exporter consumes them.
Fields marked "oracle" carry the result of an external, deterministic
facility (mathutils decomposition, the glTF exporter, the node-graph
walks, Blender's bake and render machinery) for the object or material
they sit on. -/

/-- A Blender image datablock as the texture export reads it. -/
structure Img where
  /-- Datablock name. -/
  name : String
  /-- Non-empty `image.filepath`, or `none` when falsy. -/
  filepath : Option String
  /-- Whether `os.path.isfile(bpy.path.abspath(filepath))` holds. -/
  srcExists : Bool
  /-- Bytes of the source image file (read by `shutil.copy2`). -/
  srcContent : String
  /-- Bytes `image.save_render` writes when there is no source file. -/
  renderContent : String
deriving Repr, DecidableEq

/-- A Blender material as the exporter reads it (custom properties after
`ensure_material_props` has filled the defaults in). -/
structure Mat where
  /-- `as_pointer()` identity used for deduplication. -/
  ptr : Nat
  /-- `mat.name`. -/
  name : String
  /-- Custom property `defold_material` (raw value, `none` when unset). -/
  defoldMaterialProp : Option String
  /-- Custom property `defold_texture`. -/
  defoldTextureProp : Option String
  /-- Custom property `bake_color_texture` as a truth value. -/
  bakeColorTexture : Bool
  /-- Oracle: the image `find_basecolor_image_from_material` finds by its
  read-only upstream walk of this material's node graph, if any. -/
  basecolorImage : Option Img
  /-- Oracle: whether `bake_color_emit_png` succeeds for this material on
  its object (the bake state machine itself is modelled separately). -/
  bakeOk : Bool
  /-- Oracle: the PNG bytes that bake writes on success. -/
  bakeContent : String
deriving Repr, DecidableEq

/-- A Blender object as the exporter reads it. -/
structure Obj where
  /-- `obj.type` ("MESH" for meshes). -/
  objType : String
  /-- Oracle: `is_object_visible(obj, view_layer)`. -/
  visibleInLayer : Bool
  /-- `get_prop(obj, "defold_prototype")` (object else mesh-data lookup). -/
  protoProp : Option String
  /-- Truthiness of `get_prop(obj, "defold_collision")`. -/
  collisionProp : Bool
  /-- `get_prop(obj, "collision_group")`. -/
  groupProp : Option String
  /-- `get_prop(obj, "collision_mask")`. -/
  maskProp : Option String
  /-- Object-level custom property `defold_material`. -/
  objMaterialProp : Option String
  /-- Object-level custom property `defold_texture`. -/
  objTextureProp : Option String
  /-- `obj.data.materials` slots in order (`none` for empty slots). -/
  materials : List (Option Mat)
  /-- Oracle: bytes of the GLB file `export_glb_selected` produces. -/
  glbContent : String
  /-- Oracle: the convex-hull vertices of the evaluated mesh after the
  world rotation/scale and the axis-conversion rotation, in file order. -/
  hullVerts : List (ℚ × ℚ × ℚ)
  /-- Oracle: translation part of `to_defold_trs` (axis-converted). -/
  trsPos : ℚ × ℚ × ℚ
  /-- Oracle: quaternion part of `to_defold_trs`, as (x, y, z, w). -/
  trsQuat : ℚ × ℚ × ℚ × ℚ
  /-- Oracle: scale part of `to_defold_trs`. -/
  trsScale : ℚ × ℚ × ℚ
deriving Repr, DecidableEq

/-- The `ReforgeSettings` fields the exporter reads. -/
structure Settings where
  /-- `project_root`. -/
  projectRoot : String
  /-- Whether `os.path.isdir(project_root)` holds (and the root is truthy). -/
  projectRootValid : Bool
  /-- `models_dir`. -/
  modelsDir : String
  /-- `prefabs_dir`. -/
  prefabsDir : String
  /-- `scenes_dir`. -/
  scenesDir : String
  /-- `textures_dir`. -/
  texturesDir : String
  /-- `collisions_dir`. -/
  collisionsDir : String
  /-- `default_material`. -/
  defaultMaterial : String
  /-- `export_textures`. -/
  exportTextures : Bool
  /-- `export_visible_only`. -/
  exportVisibleOnly : Bool
  /-- `collection_name`. -/
  collectionName : String
deriving Repr, DecidableEq

/-- Python `str(v).strip() if v is not None else ""`, the custom-property
string reader `_get_custom_prop_str`. -/
def propStrOf : Option String → String
  | some s => pyStripStr s
  | none => ""

/-- Truthy `defold_prototype` value: `none` when absent or empty. -/
def protoOf (obj : Obj) : Option String :=
  match obj.protoProp with
  | some s => if s = "" then none else some s
  | none => none

/-- reforge/utils.py `is_object_visible` (oracle field). -/
def is_object_visible (obj : Obj) : Bool := obj.visibleInLayer

/-- reforge/export_core.py `has_defold_collision`. -/
def has_defold_collision (obj : Obj) : Bool := obj.collisionProp

/-- reforge/export_core.py `get_collision_group`. -/
def get_collision_group (obj : Obj) : String :=
  let v := propStrOf obj.groupProp
  if v ≠ "" then v else "default"

/-- reforge/export_core.py `get_collision_mask`. -/
def get_collision_mask (obj : Obj) : String :=
  let v := propStrOf obj.maskProp
  if v ≠ "" then v else "default"

/-! ## materials.py -/

/-- Default Defold texture, materials.py `DEFAULT_DEFOLD_TEXTURE`. -/
def DEFAULT_DEFOLD_TEXTURE : String := "/builtins/assets/images/logo/logo_256.png"

/-- Loop body of `iter_unique_materials_in_order`: keep the first slot of
each `as_pointer()` identity, skipping empty slots, `seen` accumulating
the pointers already kept. -/
def iterUniqueAux : List (Option Mat) → List Nat → List Mat
  | [], _ => []
  | none :: rest, seen => iterUniqueAux rest seen
  | some m :: rest, seen =>
    if seen.contains m.ptr then iterUniqueAux rest seen
    else m :: iterUniqueAux rest (m.ptr :: seen)

/-- materials.py `iter_unique_materials_in_order`. -/
def iter_unique_materials_in_order (obj : Obj) : List Mat :=
  iterUniqueAux obj.materials []

/-- materials.py `find_basecolor_image_from_material`: the upstream
node-graph walk from the principled Base Color input.  The walk reads the
graph only; its result is carried as the oracle field `basecolorImage`. -/
def find_basecolor_image_from_material (mat : Option Mat) : Option Img :=
  mat.bind Mat.basecolorImage

/-- materials.py `export_image_to_defold_project`: copy the source image
file under its basename, or save a render of the datablock under its
sanitized name; returns the destination basename and the write performed.
(The best-effort exception path that returns `None` on a failed copy is
not modelled; copies in this development succeed.) -/
def export_image_to_defold_project (img : Img) (texturesAbsDir : String) :
    Option String × List FsOp :=
  match img.filepath with
  | some fp =>
    if img.srcExists then
      let fname := basename fp
      (some fname, [.fwrite (pjoin texturesAbsDir fname) img.srcContent])
    else
      let fname := sanitize_id img.name ++ ".png"
      (some fname, [.fwrite (pjoin texturesAbsDir fname) img.renderContent])
  | none =>
    let fname := sanitize_id img.name ++ ".png"
    (some fname, [.fwrite (pjoin texturesAbsDir fname) img.renderContent])

/-- materials.py `resolve_defold_material_and_texture_for_material`:
material name, Defold material path and texture path for one (possibly
absent) material, with the override/discovery/default chains; also the
file writes the texture export performs. -/
def resolve_defold_material_and_texture_for_material (s : Settings)
    (mat : Option Mat) (absTexturesDir texturesDirProject : String)
    (obj : Option Obj) : (String × String × String) × List FsOp :=
  let matName := match mat with
    | some m => if m.name ≠ "" then m.name else "default"
    | none => "default"
  let dm0 := match mat with
    | some m => propStrOf m.defoldMaterialProp
    | none => ""
  let dm1 := if dm0 ≠ "" then dm0 else
    match obj with
    | some o => propStrOf o.objMaterialProp
    | none => ""
  let dmat := if dm1 ≠ "" then dm1 else
    (if pyStripStr s.defaultMaterial ≠ "" then pyStripStr s.defaultMaterial
     else "/builtins/materials/model.material")
  let dt0 := match mat with
    | some m => propStrOf m.defoldTextureProp
    | none => ""
  let dt1 := if dt0 ≠ "" then dt0 else
    match obj with
    | some o => propStrOf o.objTextureProp
    | none => ""
  let found :=
    if dt1 ≠ "" then (dt1, ([] : List FsOp))
    else
      match find_basecolor_image_from_material mat with
      | some img =>
        if s.exportTextures then
          match export_image_to_defold_project img absTexturesDir with
          | (some savedName, iops) =>
            (replaceBackslash ("/" ++ texturesDirProject ++ "/" ++ savedName), iops)
          | (none, iops) => ("", iops)
        else
          match img.filepath with
          | some fp =>
            (replaceBackslash ("/" ++ texturesDirProject ++ "/" ++ basename fp), [])
          | none => ("", [])
      | none => ("", [])
  let dtex := if found.1 ≠ "" then found.1 else DEFAULT_DEFOLD_TEXTURE
  ((matName, dmat, dtex), found.2)

/-! ## defold_formats.py -/

/-- defold_formats.py `make_model_text_multi`. -/
def make_model_text_multi (meshPathProject modelName : String)
    (materialsBlocks : List (String × String × String)) : String :=
  "mesh: \"" ++ meshPathProject ++ "\"\n" ++ "name: \"" ++ modelName ++ "\"\n" ++
  String.join (materialsBlocks.map fun b =>
    "materials \x7b\n" ++
    "  name: \"" ++ b.1 ++ "\"\n" ++
    "  material: \"" ++ b.2.1 ++ "\"\n" ++
    "  textures \x7b\n" ++
    "    sampler: \"tex0\"\n" ++
    "    texture: \"" ++ b.2.2 ++ "\"\n" ++
    "  \x7d\n" ++
    "\x7d\n")

/-- defold_formats.py `make_go_ref_model_text` (the collision-object path
is `none` or a non-empty project path, matching the caller). -/
def make_go_ref_model_text (modelPathProject : String)
    (collisionobjectProjectPath : Option String) : String :=
  match collisionobjectProjectPath with
  | some cp =>
    "components \x7b\n  id: \"model\"\n  component: \"" ++ modelPathProject ++
    "\"\n\x7d\ncomponents \x7b\n  id: \"collision\"\n  component: \"" ++ cp ++ "\"\n\x7d\n"
  | none =>
    "components \x7b\n  id: \"model\"\n  component: \"" ++ modelPathProject ++ "\"\n\x7d\n"

/-! ## collision.py -/

/-- The convex-hull file text: header plus one `data:` line per coordinate
in hull-vertex-then-axis order, each rendered with Python's default float
formatting (`f"data: \x7bp.x\x7d"` in the source). -/
def convexHullText (verts : List (ℚ × ℚ × ℚ)) : String :=
  "shape_type: TYPE_HULL\n" ++
  String.join (verts.map fun v =>
    "data: " ++ reprFloat v.1 ++ "\n" ++
    "data: " ++ reprFloat v.2.1 ++ "\n" ++
    "data: " ++ reprFloat v.2.2 ++ "\n")

/-- collision.py `export_convex_hull_points`: no vertices, no file;
otherwise write the hull file.  The vertices (post world rotation/scale
and axis conversion) are the oracle field `hullVerts`. -/
def export_convex_hull_points (obj : Obj) (filepath : String) : List FsOp :=
  if obj.hullVerts.isEmpty then []
  else [.fwrite filepath (convexHullText obj.hullVerts)]

/-- collision.py `make_collisionobject_text`: static body, zero mass,
friction 0.1 and restitution 0.5 rendered with `:.3f`. -/
def make_collisionobject_text (convexshapeProjectPath group mask : String) : String :=
  let g := if group ≠ "" then group else "default"
  let m := if mask ≠ "" then mask else "default"
  "collision_shape: \"" ++ convexshapeProjectPath ++ "\"\n" ++
  "type: COLLISION_OBJECT_TYPE_STATIC\n" ++
  "mass: 0.0\n" ++
  "friction: " ++ fmtFixed 3 (mkRat 1 10) ++ "\n" ++
  "restitution: " ++ fmtFixed 3 (mkRat 1 2) ++ "\n" ++
  "group: \"" ++ g ++ "\"\n" ++
  "mask: \"" ++ m ++ "\"\n"

/-! ## export_core.py: per-prototype export -/

/-- export_core.py `_make_baked_texture_filename`. -/
def make_baked_texture_filename (proto matName : String) : String :=
  proto ++ "__" ++ sanitize_id matName ++ "_albedo.png"

/-- One iteration of the `.model` material-block loop in
`export_single_prototype_assets`: resolve the triple, then, when the
material is flagged for baking, remove any stale baked file, bake, and on
success point the texture reference at the baked file. -/
def blockForMat (s : Settings) (obj : Obj) (proto absTextures : String)
    (mat : Mat) : (String × String × String) × List FsOp :=
  let r := resolve_defold_material_and_texture_for_material s (some mat)
    absTextures s.texturesDir (some obj)
  let matName := r.1.1
  if mat.bakeColorTexture then
    let bakedFilename := make_baked_texture_filename proto matName
    let bakedAbs := pjoin absTextures bakedFilename
    let bakeOps := [FsOp.remove bakedAbs] ++
      (if mat.bakeOk then [FsOp.fwrite bakedAbs mat.bakeContent] else [])
    let tex := if mat.bakeOk
      then replaceBackslash ("/" ++ s.texturesDir ++ "/" ++ bakedFilename)
      else r.1.2.2
    ((matName, r.1.2.1, tex), r.2 ++ bakeOps)
  else (r.1, r.2)

/-- The material-block loop over the deduplicated materials, collecting
blocks and file writes in loop order. -/
def blocksLoop (s : Settings) (obj : Obj) (proto absTextures : String) :
    List Mat → List (String × String × String) × List FsOp
  | [] => ([], [])
  | m :: rest =>
    let b := blockForMat s obj proto absTextures m
    let more := blocksLoop s obj proto absTextures rest
    (b.1 :: more.1, b.2 ++ more.2)

/-- The `.model` material blocks of `export_single_prototype_assets`: one
block per unique material, or a single default block for a mesh without
materials, together with the texture-export and bake writes. -/
def blocksAndOps (s : Settings) (obj : Obj) (proto absTextures : String) :
    List (String × String × String) × List FsOp :=
  let ms := iter_unique_materials_in_order obj
  if ms.isEmpty then
    let r := resolve_defold_material_and_texture_for_material s none
      absTextures s.texturesDir (some obj)
    ([r.1], r.2)
  else blocksLoop s obj proto absTextures ms

/-- Absolute path of the prototype-definition (.go) file. -/
def goPathOf (s : Settings) (proto : String) : String :=
  pjoin (pjoin s.projectRoot s.prefabsDir) (proto ++ ".go")

/-- Absolute path of the model file. -/
def modelPathOf (s : Settings) (proto : String) : String :=
  pjoin (pjoin s.projectRoot s.modelsDir) (proto ++ ".model")

/-- Project-relative reference path of the model file. -/
def modelProjectPathOf (s : Settings) (proto : String) : String :=
  replaceBackslash ("/" ++ s.modelsDir ++ "/" ++ proto ++ ".model")

/-- The model-file text a run generates for this object. -/
def modelTextOf (s : Settings) (obj : Obj) (proto : String) : String :=
  make_model_text_multi (replaceBackslash ("/" ++ s.modelsDir ++ "/" ++ proto ++ ".glb"))
    proto (blocksAndOps s obj proto (pjoin s.projectRoot s.texturesDir)).1

/-- The prototype-definition text a run would generate for this object. -/
def goTextOf (s : Settings) (obj : Obj) (proto : String) : String :=
  make_go_ref_model_text (modelProjectPathOf s proto)
    (if has_defold_collision obj
     then some (replaceBackslash ("/" ++ s.collisionsDir ++ "/" ++ proto ++ ".collisionobject"))
     else none)

/-- The four `safe_remove_file` calls that delete the regenerated outputs
of one prototype (never the .go file). -/
def cleanupOpsFor (s : Settings) (proto : String) : List FsOp :=
  [FsOp.remove (pjoin (pjoin s.projectRoot s.modelsDir) (proto ++ ".glb")),
   FsOp.remove (pjoin (pjoin s.projectRoot s.modelsDir) (proto ++ ".model")),
   FsOp.remove (pjoin (pjoin s.projectRoot s.collisionsDir) (proto ++ ".convexshape")),
   FsOp.remove (pjoin (pjoin s.projectRoot s.collisionsDir) (proto ++ ".collisionobject"))]

/-- The collision writes of one prototype, when its collision flag is set. -/
def colOpsFor (s : Settings) (obj : Obj) (proto : String) : List FsOp :=
  if has_defold_collision obj then
    export_convex_hull_points obj
      (pjoin (pjoin s.projectRoot s.collisionsDir) (proto ++ ".convexshape")) ++
    [FsOp.fwrite (pjoin (pjoin s.projectRoot s.collisionsDir) (proto ++ ".collisionobject"))
      (make_collisionobject_text
        (replaceBackslash ("/" ++ s.collisionsDir ++ "/" ++ proto ++ ".convexshape"))
        (get_collision_group obj) (get_collision_mask obj))]
  else []

/-- The file-system operations of one successful
`export_single_prototype_assets` run, in program order: delete the
regenerated outputs, write the GLB, the texture-export and bake writes of
the material loop, write the model file, the collision files when flagged,
and create the .go file only when absent. -/
def opsFor (s : Settings) (obj : Obj) (proto : String) : List FsOp :=
  cleanupOpsFor s proto ++
  [FsOp.fwrite (pjoin (pjoin s.projectRoot s.modelsDir) (proto ++ ".glb")) obj.glbContent] ++
  (blocksAndOps s obj proto (pjoin s.projectRoot s.texturesDir)).2 ++
  [FsOp.fwrite (modelPathOf s proto) (modelTextOf s obj proto)] ++
  colOpsFor s obj proto ++
  [FsOp.writeIfAbsent (goPathOf s proto) (goTextOf s obj proto)]

/-- export_core.py `export_single_prototype_assets`: validate, derive the
prototype id, then perform `opsFor` and return the prototype id, or the
error raised. -/
def export_single_prototype_assets (s : Settings) (obj : Obj) :
    List FsOp × Except String String :=
  if ¬ s.projectRootValid then ([], .error "Project Root is empty or not found.")
  else if obj.objType ≠ "MESH" then ([], .error "Active object is not a MESH.")
  else
    match protoOf obj with
    | none => ([], .error "Active object has no defold_prototype custom property.")
    | some protoRaw =>
      (opsFor s obj (sanitize_id protoRaw), .ok (sanitize_id protoRaw))

/-! ## export_core.py: grouping and the batch/scene drivers -/

/-- Python `dict.setdefault(k, []).append(o)` on an insertion-ordered
association list: append to the existing group or add a new key at the end. -/
def addToGroup : List (String × List Obj) → String → Obj → List (String × List Obj)
  | [], k, o => [(k, [o])]
  | (k0, l) :: rest, k, o =>
    if k0 = k then (k0, l ++ [o]) :: rest
    else (k0, l) :: addToGroup rest k o

/-- One iteration of the grouping loop shared by
`export_all_prototypes_assets_no_scene` and `run_export_scene`: skip
non-meshes, apply the visibility filter, skip objects without a truthy
`defold_prototype`, and group the rest by the sanitized prototype id. -/
def groupStep (s : Settings) (gs : List (String × List Obj)) (o : Obj) :
    List (String × List Obj) :=
  if o.objType ≠ "MESH" then gs
  else if s.exportVisibleOnly ∧ ¬ is_object_visible o then gs
  else
    match protoOf o with
    | none => gs
    | some raw => addToGroup gs (sanitize_id raw) o

/-- The grouping loop: fold `groupStep` over the scene's objects, giving
the groups keyed by sanitized prototype id in first-seen order. -/
def groupsOf (s : Settings) (objects : List Obj) : List (String × List Obj) :=
  objects.foldl (groupStep s) []

/-- Association-list lookup on the grouping. -/
def groupLookup : List (String × List Obj) → String → Option (List Obj)
  | [], _ => none
  | (k0, l) :: rest, k => if k0 = k then some l else groupLookup rest k

/-- Whether one object passes the grouping loop's three filters. -/
def eligibleForExport (s : Settings) (obj : Obj) : Bool :=
  obj.objType == "MESH" && (!s.exportVisibleOnly || is_object_visible obj)
    && (protoOf obj).isSome

/-- The sanitized prototype key of an object, when it has one. -/
def sanitizedKeyOf (obj : Obj) : Option String := (protoOf obj).map sanitize_id

/-- The per-prototype batch loop: export each representative in turn,
accumulating operations; the first error stops the loop and propagates,
with the operations performed so far. -/
def runExportBatch (s : Settings) : List Obj → Nat → List FsOp → List FsOp × Except String Nat
  | [], n, acc => (acc, .ok n)
  | o :: rest, n, acc =>
    let r := export_single_prototype_assets s o
    match r.2 with
    | .ok _ => runExportBatch s rest (n + 1) (acc ++ r.1)
    | .error e => (acc ++ r.1, .error e)

/-- Representatives (`groups[proto][0]`) in sorted-key order, the iteration
order of `export_all_prototypes_assets_no_scene`. -/
def sortedReps (s : Settings) (objects : List Obj) : List Obj :=
  let groups := groupsOf s objects
  (sortStr (groups.map Prod.fst)).filterMap fun k => (groupLookup groups k).bind List.head?

/-- export_core.py `export_all_prototypes_assets_no_scene`: group, fail on
an empty grouping, then export the representative of each prototype in
sorted-key order, counting the prototypes exported. -/
def export_all_prototypes_assets_no_scene (s : Settings) (objects : List Obj) :
    List FsOp × Except String Nat :=
  let groups := groupsOf s objects
  if groups.isEmpty then
    ([], .error "No MESH objects with defold_prototype found (with current visibility filter).")
  else runExportBatch s (sortedReps s objects) 0 []

/-- operators.py `REFORGE_OT_export_all_prototypes.execute`: report the
success summary, or catch the propagating error and report its text
(first component false = CANCELLED). -/
def operatorExportAllPrototypes (s : Settings) (objects : List Obj) : Bool × String :=
  match (export_all_prototypes_assets_no_scene s objects).2 with
  | .ok n => (true, "Exported prototypes: " ++ toString n)
  | .error e => (false, e)

/-! ## Scene compilation: instances and the .collection emitter -/

/-- One instance record collected by `run_export_scene`. -/
structure Inst where
  /-- Stable id `proto_NNN`. -/
  id : String
  /-- Project path of the prototype's .go file. -/
  prototype : String
  /-- Target-space position from `to_defold_trs`. -/
  pos : ℚ × ℚ × ℚ
  /-- Target-space quaternion (x, y, z, w) from `to_defold_trs`. -/
  quat : ℚ × ℚ × ℚ × ℚ
  /-- Target-space scale from `to_defold_trs`. -/
  scale : ℚ × ℚ × ℚ
deriving Repr, DecidableEq

/-- export_core.py `to_defold_trs`: the axis-conversion conjugation and the
mathutils translation/quaternion/scale decomposition are external and
deterministic; their result is carried as oracle fields of the object. -/
def to_defold_trs (obj : Obj) : (ℚ × ℚ × ℚ) × (ℚ × ℚ × ℚ × ℚ) × (ℚ × ℚ × ℚ) :=
  (obj.trsPos, obj.trsQuat, obj.trsScale)

/-- The instance loop of `run_export_scene` for one prototype's group:
pre-incremented counter, id `f"{proto}_{counter:03d}"`, transform from
`to_defold_trs`. -/
def instsAux (proto gopath : String) : List Obj → Nat → List Inst
  | [], _ => []
  | o :: rest, c =>
    { id := proto ++ "_" ++ pad3str (c + 1), prototype := gopath,
      pos := (to_defold_trs o).1, quat := (to_defold_trs o).2.1,
      scale := (to_defold_trs o).2.2 } :: instsAux proto gopath rest (c + 1)

/-- Project path of the prototype's .go file as `run_export_scene` records
it in `proto_to_go`. -/
def goProjectPathOf (s : Settings) (proto : String) : String :=
  replaceBackslash ("/" ++ s.prefabsDir ++ "/" ++ proto ++ ".go")

/-- `instances_by_proto` of `run_export_scene`: per group, the instance
records with a per-prototype counter starting at 1. -/
def instancesByProtoOf (s : Settings) (groups : List (String × List Obj)) :
    List (String × List Inst) :=
  groups.map fun g => (g.1, instsAux g.1 (goProjectPathOf s g.1) g.2 0)

/-- Python `instances_by_proto.get(proto, [])`. -/
def lookupInsts : List (String × List Inst) → String → List Inst
  | [], _ => []
  | (k0, l) :: rest, k => if k0 = k then l else lookupInsts rest k

/-- Tolerance `1e-9` of the default-omission checks (the double closest to
1e-9; the claims are settled at inputs where the exact-rational comparison
and the double comparison agree). -/
def omitTol : ℚ := mkRat 1 1000000000

/-- Position sub-block of one instance: emitted only when a component's
magnitude exceeds the tolerance. -/
def posBlockOf (inst : Inst) : String :=
  if omitTol < ratAbs inst.pos.1 ∨ omitTol < ratAbs inst.pos.2.1 ∨
      omitTol < ratAbs inst.pos.2.2 then
    "  position \x7b\n" ++
    "    x: " ++ fmtFixed 6 inst.pos.1 ++ "\n" ++
    "    y: " ++ fmtFixed 6 inst.pos.2.1 ++ "\n" ++
    "    z: " ++ fmtFixed 6 inst.pos.2.2 ++ "\n" ++
    "  \x7d\n"
  else ""

/-- Rotation sub-block of one instance: emitted only when the quaternion
deviates from identity (0, 0, 0, 1) beyond the tolerance. -/
def rotBlockOf (inst : Inst) : String :=
  if omitTol < ratAbs inst.quat.1 ∨ omitTol < ratAbs inst.quat.2.1 ∨
      omitTol < ratAbs inst.quat.2.2.1 ∨
      omitTol < ratAbs (ratSub inst.quat.2.2.2 (mkRat 1 1)) then
    "  rotation \x7b\n" ++
    "    x: " ++ fmtFixed 6 inst.quat.1 ++ "\n" ++
    "    y: " ++ fmtFixed 6 inst.quat.2.1 ++ "\n" ++
    "    z: " ++ fmtFixed 6 inst.quat.2.2.1 ++ "\n" ++
    "    w: " ++ fmtFixed 6 inst.quat.2.2.2 ++ "\n" ++
    "  \x7d\n"
  else ""

/-- Scale sub-block of one instance: emitted only when a component deviates
from 1 beyond the tolerance. -/
def scaleBlockOf (inst : Inst) : String :=
  if omitTol < ratAbs (ratSub inst.scale.1 (mkRat 1 1)) ∨
      omitTol < ratAbs (ratSub inst.scale.2.1 (mkRat 1 1)) ∨
      omitTol < ratAbs (ratSub inst.scale.2.2 (mkRat 1 1)) then
    "  scale3 \x7b\n" ++
    "    x: " ++ fmtFixed 6 inst.scale.1 ++ "\n" ++
    "    y: " ++ fmtFixed 6 inst.scale.2.1 ++ "\n" ++
    "    z: " ++ fmtFixed 6 inst.scale.2.2 ++ "\n" ++
    "  \x7d\n"
  else ""

/-- One `instances` block of the .collection file. -/
def instanceText (inst : Inst) : String :=
  "instances \x7b\n" ++
  "  id: \"" ++ inst.id ++ "\"\n" ++
  "  prototype: \"" ++ inst.prototype ++ "\"\n" ++
  posBlockOf inst ++ rotBlockOf inst ++ scaleBlockOf inst ++
  "\x7d\n"

/-- defold_formats.py `make_collection_text_grouped_embedded`: instance
blocks grouped by sorted prototype, `scale_along_z`, the root node listing
every prototype, and one node per prototype listing its instance ids. -/
def make_collection_text_grouped_embedded (collectionName : String)
    (protosSorted : List String) (instancesByProto : List (String × List Inst)) : String :=
  "name: \"" ++ collectionName ++ "\"\n" ++
  String.join (protosSorted.map fun p =>
    String.join ((lookupInsts instancesByProto p).map instanceText)) ++
  "scale_along_z: 0\n" ++
  "embedded_instances \x7b\n  id: \"root\"\n" ++
  String.join (protosSorted.map fun p => "  children: \"" ++ p ++ "\"\n") ++
  "  data: \"\"\n\x7d\n" ++
  String.join (protosSorted.map fun p =>
    "embedded_instances \x7b\n  id: \"" ++ p ++ "\"\n" ++
    String.join ((lookupInsts instancesByProto p).map fun i =>
      "  children: \"" ++ i.id ++ "\"\n") ++
    "  data: \"\"\n\x7d\n")

/-- Representatives (`objs[0]`) in grouping (first-seen) order, the
iteration order of the export loop in `run_export_scene`. -/
def sceneReps (groups : List (String × List Obj)) : List Obj :=
  groups.filterMap fun g => g.2.head?

/-- export_core.py `run_export_scene`: validate the root, group, export
each prototype's representative, collect the per-prototype instance
records, and delete and rewrite the .collection file.  Returns the
operations in program order and the collection path, or the error. -/
def run_export_scene (s : Settings) (objects : List Obj) :
    List FsOp × Except String String :=
  if ¬ s.projectRootValid then ([], .error "Project Root is empty or not found.")
  else
    let groups := groupsOf s objects
    if groups.isEmpty then
      ([], .error "No MESH objects with defold_prototype found (with current visibility filter).")
    else
      let batch := runExportBatch s (sceneReps groups) 0 []
      match batch.2 with
      | .error e => (batch.1, .error e)
      | .ok _ =>
        let text := make_collection_text_grouped_embedded s.collectionName
          (sortStr (groups.map Prod.fst)) (instancesByProtoOf s groups)
        let absCollection := pjoin (pjoin s.projectRoot s.scenesDir)
          (s.collectionName ++ ".collection")
        (batch.1 ++ [FsOp.remove absCollection, FsOp.fwrite absCollection text],
         .ok absCollection)

/-- Every instance record of a scene run, in emission group order. -/
def sceneInstances (s : Settings) (objects : List Obj) : List Inst :=
  (instancesByProtoOf s (groupsOf s objects)).flatMap Prod.snd

/-! ## bake.py: the texture-synthesis gateway state machine

The externally visible state `bake_color_emit_png` mutates: the render
engine, the bake-pass configuration, the scene's selection and active
object, the links into the material output's Surface socket, the
temporary emission and image-texture nodes, and the image datablocks.
The bake operator itself (`bpy.ops.object.bake`) is external; whether it
raises is the parameter `bakeOpSucceeds`.  The `.active_material_index`,
UV active-layer and node-editor selection mutations are outside the
modelled state (the claim does not mention them). -/

/-- The shared Blender state the gateway touches. -/
structure BakeScene where
  /-- `scene.render.engine`. -/
  engine : String
  /-- `scene.render.bake.use_pass_direct`. -/
  passDirect : Bool
  /-- `scene.render.bake.use_pass_indirect`. -/
  passIndirect : Bool
  /-- `scene.render.bake.use_pass_color`. -/
  passColor : Bool
  /-- Names of the selected objects. -/
  selectedObjects : List String
  /-- Name of the active object, if any. -/
  activeObject : Option String
  /-- Links into the material output's Surface input, as
  (from-socket, to-socket) pairs. -/
  surfaceLinks : List (Nat × Nat)
  /-- Whether the temporary emission-to-surface link is present. -/
  emitLinked : Bool
  /-- Whether the temporary emission node is present. -/
  hasEmitNode : Bool
  /-- Whether the temporary image-texture node is present. -/
  hasTexNode : Bool
  /-- Material-output nodes the gateway has added (it adds one when the
  material has none, and never removes it). -/
  outputNodesAdded : Nat
  /-- Names of the image datablocks. -/
  images : List String
deriving Repr, DecidableEq

/-- The object fields `bake_color_emit_png` reads. -/
structure BakeObj where
  /-- `obj.name`. -/
  name : String
  /-- `obj.type`. -/
  objType : String
  /-- Whether `obj.data.uv_layers` is non-empty. -/
  hasUV : Bool
  /-- Material names of `obj.material_slots` in order. -/
  slotMaterialNames : List String
deriving Repr, DecidableEq

/-- The material fields `bake_color_emit_png` reads. -/
structure BakeMat where
  /-- `mat.name`. -/
  name : String
  /-- `mat.use_nodes` with a node tree present. -/
  useNodes : Bool
  /-- Whether the tree has a BSDF_PRINCIPLED node. -/
  hasPrincipled : Bool
  /-- From-socket feeding the principled Base Color input, when linked. -/
  baseColorLinkSource : Option Nat
  /-- The constant Base Color default value, when readable. -/
  baseColorConst : Option (ℚ × ℚ × ℚ × ℚ)
  /-- Whether the tree has an OUTPUT_MATERIAL node. -/
  hasOutputNode : Bool
  /-- Oracle: the color-output socket `_walk_upstream_find_color_source`
  finds by its read-only walk from the original Surface source. -/
  walkColorSource : Option Nat
deriving Repr, DecidableEq

/-- bake.py `bake_color_emit_png`: the gateway's effect on the shared
Blender state, branch for branch — early validation returns, the no-UV
constant-color short-circuit, the engine switch, `_set_active_object`,
the slot check, temporary image/node creation, emission-source selection,
the bake in EMIT or DIFFUSE(COLOR) mode, and the unconditional cleanup
phase.  The name of the temporary image datablock is `imgName`
(`splitext(basename(out_abs_path))[0]` in the source). -/
def bake_color_emit_png (st : BakeScene) (obj : BakeObj) (mat : BakeMat)
    (imgName : String) (bakeOpSucceeds : Bool) : Bool × BakeScene :=
  if obj.objType ≠ "MESH" then (false, st)
  else if ¬ mat.useNodes then (false, st)
  else
    let earlyConst := if mat.hasPrincipled ∧ mat.baseColorLinkSource.isNone
      then mat.baseColorConst else none
    if ¬ obj.hasUV ∧ earlyConst.isSome then
      (true, st)
    else if ¬ obj.hasUV then (false, st)
    else
      let prevEngine := st.engine
      let st1 := { st with engine := "CYCLES",
                           selectedObjects := [obj.name],
                           activeObject := some obj.name }
      if ¬ obj.slotMaterialNames.contains mat.name then
        (false, { st1 with engine := prevEngine })
      else
        let st2 := { st1 with images := st1.images ++ [imgName] }
        let st3 := if mat.hasOutputNode then st2
          else { st2 with outputNodesAdded := st2.outputNodesAdded + 1 }
        let originalPairs := st3.surfaceLinks
        let st4 := { st3 with surfaceLinks := [], hasEmitNode := true, hasTexNode := true }
        let fromA : Option Nat :=
          if mat.hasPrincipled ∧ earlyConst.isNone then mat.baseColorLinkSource else none
        let fromColor : Option Nat :=
          if earlyConst.isNone ∧ fromA.isNone then
            (if originalPairs.head?.isSome then mat.walkColorSource else none)
          else fromA
        let canEmit := earlyConst.isSome ∨ fromColor.isSome
        let st5 := if canEmit then { st4 with emitLinked := true } else st4
        let ok := bakeOpSucceeds
        let st6 := if canEmit then st5
          else { st5 with passDirect := false, passIndirect := false, passColor := true }
        let st7 := if canEmit then st6
          else { st6 with passDirect := st.passDirect,
                          passIndirect := st.passIndirect,
                          passColor := st.passColor }
        let st8 := { st7 with surfaceLinks := originalPairs,
                              emitLinked := false,
                              hasEmitNode := false,
                              hasTexNode := false,
                              engine := prevEngine,
                              images := st7.images.filter (fun n => n ≠ imgName) }
        (ok, st8)

/-! ## Spec-side comparison definitions and concrete inputs -/

/-- Spec-side description of first-occurrence deduplication: keep the
first occurrence of each element, in order.  Compared against the
seen-set loop of `iter_unique_materials_in_order`. -/
def dedupKeepFirst : List Nat → List Nat
  | [] => []
  | x :: xs => x :: dedupKeepFirst (xs.filter (fun y => y ≠ x))
termination_by l => l.length
decreasing_by
  exact Nat.lt_succ_of_le (List.length_filter_le _ _)

/-- First-occurrence deduplication relative to an already-seen set, the
generalization matching the loop's accumulator. -/
def dedupSeen (seen : List Nat) : List Nat → List Nat
  | [] => []
  | x :: xs =>
    if seen.contains x then dedupSeen seen xs
    else x :: dedupSeen (x :: seen) xs

/-- Settings with the add-on's defaults and a valid project root. -/
def baseSettings : Settings :=
  { projectRoot := "/proj", projectRootValid := true,
    modelsDir := "assets/models", prefabsDir := "assets/prefabs",
    scenesDir := "assets/scenes", texturesDir := "assets/textures",
    collisionsDir := "assets/collisions",
    defaultMaterial := "/builtins/materials/model.material",
    exportTextures := true, exportVisibleOnly := true,
    collectionName := "scene_from_blender" }

/-- A visible mesh object with the given prototype id and no materials,
no collision, identity transform. -/
def plainObj (proto : String) : Obj :=
  { objType := "MESH", visibleInLayer := true, protoProp := some proto,
    collisionProp := false, groupProp := none, maskProp := none,
    objMaterialProp := none, objTextureProp := none, materials := [],
    glbContent := "GLB", hullVerts := [],
    trsPos := (0, 0, 0), trsQuat := (0, 0, 0, 1), trsScale := (1, 1, 1) }

/-- File system holding a manually edited crate.go under the default dirs. -/
def c1wFs : FS := fun p =>
  if p = "/proj/assets/prefabs/crate.go" then some "MANUAL EDIT" else none

/-- Settings whose textures directory coincides with the prefabs
directory (both are free-form strings in the add-on's settings). -/
def c1xS : Settings := { baseSettings with texturesDir := "assets/prefabs" }

/-- A source image whose file on disk is named exactly crate.go. -/
def c1xImg : Img :=
  { name := "evil", filepath := some "/tmp/crate.go", srcExists := true,
    srcContent := "TEXTURE BYTES", renderContent := "RENDER" }

/-- A material whose base-color discovery finds `c1xImg`. -/
def c1xMat : Mat :=
  { ptr := 1, name := "M", defoldMaterialProp := none, defoldTextureProp := none,
    bakeColorTexture := false, basecolorImage := some c1xImg,
    bakeOk := false, bakeContent := "" }

/-- A crate prototype carrying `c1xMat`. -/
def c1xObj : Obj := { plainObj "crate" with materials := [some c1xMat] }

/-- Materials A and B with distinct pointer identities. -/
def matA : Mat :=
  { ptr := 1, name := "A", defoldMaterialProp := none, defoldTextureProp := none,
    bakeColorTexture := false, basecolorImage := none, bakeOk := false, bakeContent := "" }

/-- Second material for the slot-collapse example. -/
def matB : Mat := { matA with ptr := 2, name := "B" }

/-- A mesh whose material slots are [A, B, A] by reference. -/
def objABA : Obj := { plainObj "thing" with materials := [some matA, some matB, some matA] }

/-- An instance at the origin with identity rotation and unit scale. -/
def instAtOrigin : Inst :=
  { id := "crate_001", prototype := "/assets/prefabs/crate.go",
    pos := (0, 0, 0), quat := (0, 0, 0, 1), scale := (1, 1, 1) }

/-- The origin instance moved to (1e-10, 0, 0), below the tolerance. -/
def instTiny : Inst := { instAtOrigin with pos := (mkRat 1 10000000000, 0, 0) }

/-- The origin instance moved to (1e-8, 0, 0), above the tolerance. -/
def instSmall : Inst := { instAtOrigin with pos := (mkRat 1 100000000, 0, 0) }

/-- Blender state before a bake call: EEVEE engine, all bake passes on,
a lamp selected and active, one Surface link. -/
def c7St : BakeScene :=
  { engine := "BLENDER_EEVEE", passDirect := true, passIndirect := true,
    passColor := true, selectedObjects := ["Lamp"], activeObject := some "Lamp",
    surfaceLinks := [(5, 7)], emitLinked := false, hasEmitNode := false,
    hasTexNode := false, outputNodesAdded := 0, images := [] }

/-- A UV-mapped mesh whose slots do not contain the baked material. -/
def c7Obj : BakeObj :=
  { name := "Cube", objType := "MESH", hasUV := true, slotMaterialNames := ["Other"] }

/-- A node material with a linked principled Base Color. -/
def c7Mat : BakeMat :=
  { name := "BakedMat", useNodes := true, hasPrincipled := true,
    baseColorLinkSource := some 5, baseColorConst := none,
    hasOutputNode := true, walkColorSource := none }

/-- Settings with an invalid project root (the batch exporter does not
re-check the root before its loop; the first per-object export raises). -/
def c8wS : Settings := { baseSettings with projectRootValid := false }

/-- Two prototypes whose sorted order is alpha before beta. -/
def c8wObjs : List Obj := [plainObj "beta", plainObj "alpha"]

/-- Per-path fold of operations, the pointwise view of `runFsOps`. -/
def foldAt (p : String) (v : Option String) (ops : List FsOp) : Option String :=
  ops.foldl (opAt p) v

/-- The shapes a per-path effect of an operation sequence can take:
constant, identity, or write-default-if-absent. -/
def NiceF (g : Option String → Option String) : Prop :=
  (∀ v w, g v = g w) ∨ (∀ v, g v = v) ∨ (∃ t, ∀ v, g v = some (v.getD t))

/-- The last character of a string, used to discriminate the generated
file names by their extension. -/
def lastChar (s : String) : Option Char := s.data.getLast?

/-- The operations of one successful per-prototype run up to, but not
including, the final create-if-absent write of the .go file. -/
def frontOps (s : Settings) (obj : Obj) (proto : String) : List FsOp :=
  cleanupOpsFor s proto ++
  [FsOp.fwrite (pjoin (pjoin s.projectRoot s.modelsDir) (proto ++ ".glb")) obj.glbContent] ++
  (blocksAndOps s obj proto (pjoin s.projectRoot s.texturesDir)).2 ++
  [FsOp.fwrite (modelPathOf s proto) (modelTextOf s obj proto)] ++
  colOpsFor s obj proto

/-! ## File-system lemmas -/

theorem applyOp_at (fs : FS) (op : FsOp) (p : String) :
    applyOp fs op p = opAt p (fs p) op := by
  cases op with
  | remove q => simp only [applyOp, opAt]
  | fwrite q c => simp only [applyOp, opAt]
  | writeIfAbsent q c =>
    simp only [applyOp, opAt]
    by_cases h : p = q
    · subst h; simp
    · simp [h]

theorem foldAt_cons (p : String) (v : Option String) (op : FsOp) (rest : List FsOp) :
    foldAt p v (op :: rest) = foldAt p (opAt p v op) rest := rfl

theorem runFsOps_pointwise (ops : List FsOp) (fs : FS) (p : String) :
    runFsOps fs ops p = foldAt p (fs p) ops := by
  induction ops generalizing fs with
  | nil => rfl
  | cons op rest ih =>
    show runFsOps (applyOp fs op) rest p = foldAt p (fs p) (op :: rest)
    rw [ih, foldAt_cons, applyOp_at]

theorem foldAt_append (p : String) (v : Option String) (l1 l2 : List FsOp) :
    foldAt p v (l1 ++ l2) = foldAt p (foldAt p v l1) l2 := by
  simp [foldAt, List.foldl_append]

theorem opAt_skip (p : String) (v : Option String) (op : FsOp) (h : opPath op ≠ p) :
    opAt p v op = v := by
  cases op with
  | remove q =>
    simp only [opPath] at h
    exact if_neg fun hc => h hc.symm
  | fwrite q c =>
    simp only [opPath] at h
    exact if_neg fun hc => h hc.symm
  | writeIfAbsent q c =>
    simp only [opPath] at h
    exact if_neg fun hc => h hc.symm

theorem foldAt_untouched (p : String) (v : Option String) (ops : List FsOp)
    (h : ∀ op ∈ ops, opPath op ≠ p) : foldAt p v ops = v := by
  induction ops generalizing v with
  | nil => rfl
  | cons op rest ih =>
    rw [foldAt_cons, opAt_skip p v op (h op (List.mem_cons_self _ _))]
    exact ih v fun o ho => h o (List.mem_cons_of_mem _ ho)

theorem niceF_foldAt (ops : List FsOp) (p : String) :
    NiceF (fun v => foldAt p v ops) := by
  induction ops with
  | nil => exact Or.inr (Or.inl fun v => rfl)
  | cons op rest ih =>
    rcases ih with hconst | hid | ⟨t, ht⟩
    · refine Or.inl fun v w => ?_
      show foldAt p v (op :: rest) = foldAt p w (op :: rest)
      rw [foldAt_cons, foldAt_cons]
      exact hconst _ _
    · -- tail is the identity: the head operation decides the shape
      cases op with
      | remove q =>
        by_cases hpq : p = q
        · refine Or.inl fun v w => ?_
          show foldAt p v (FsOp.remove q :: rest) = foldAt p w (FsOp.remove q :: rest)
          rw [foldAt_cons, foldAt_cons]
          simp [opAt, hpq]
        · refine Or.inr (Or.inl fun v => ?_)
          show foldAt p v (FsOp.remove q :: rest) = v
          rw [foldAt_cons, opAt_skip p v (FsOp.remove q) (fun hc => hpq hc.symm)]
          exact hid v
      | fwrite q c =>
        by_cases hpq : p = q
        · refine Or.inl fun v w => ?_
          show foldAt p v (FsOp.fwrite q c :: rest) = foldAt p w (FsOp.fwrite q c :: rest)
          rw [foldAt_cons, foldAt_cons]
          simp [opAt, hpq]
        · refine Or.inr (Or.inl fun v => ?_)
          show foldAt p v (FsOp.fwrite q c :: rest) = v
          rw [foldAt_cons, opAt_skip p v (FsOp.fwrite q c) (fun hc => hpq hc.symm)]
          exact hid v
      | writeIfAbsent q c =>
        by_cases hpq : p = q
        · refine Or.inr (Or.inr ⟨c, fun v => ?_⟩)
          show foldAt p v (FsOp.writeIfAbsent q c :: rest) = some (v.getD c)
          rw [foldAt_cons]
          have : opAt p v (FsOp.writeIfAbsent q c) = some (v.getD c) := by
            simp [opAt, hpq]
          rw [this]
          exact hid _
        · refine Or.inr (Or.inl fun v => ?_)
          show foldAt p v (FsOp.writeIfAbsent q c :: rest) = v
          rw [foldAt_cons, opAt_skip p v (FsOp.writeIfAbsent q c) (fun hc => hpq hc.symm)]
          exact hid v
    · -- tail writes the default t when absent
      cases op with
      | remove q =>
        by_cases hpq : p = q
        · refine Or.inl fun v w => ?_
          show foldAt p v (FsOp.remove q :: rest) = foldAt p w (FsOp.remove q :: rest)
          rw [foldAt_cons, foldAt_cons]
          simp [opAt, hpq]
        · refine Or.inr (Or.inr ⟨t, fun v => ?_⟩)
          show foldAt p v (FsOp.remove q :: rest) = some (v.getD t)
          rw [foldAt_cons, opAt_skip p v (FsOp.remove q) (fun hc => hpq hc.symm)]
          exact ht v
      | fwrite q c =>
        by_cases hpq : p = q
        · refine Or.inl fun v w => ?_
          show foldAt p v (FsOp.fwrite q c :: rest) = foldAt p w (FsOp.fwrite q c :: rest)
          rw [foldAt_cons, foldAt_cons]
          simp [opAt, hpq]
        · refine Or.inr (Or.inr ⟨t, fun v => ?_⟩)
          show foldAt p v (FsOp.fwrite q c :: rest) = some (v.getD t)
          rw [foldAt_cons, opAt_skip p v (FsOp.fwrite q c) (fun hc => hpq hc.symm)]
          exact ht v
      | writeIfAbsent q c =>
        by_cases hpq : p = q
        · refine Or.inr (Or.inr ⟨c, fun v => ?_⟩)
          show foldAt p v (FsOp.writeIfAbsent q c :: rest) = some (v.getD c)
          rw [foldAt_cons]
          have : opAt p v (FsOp.writeIfAbsent q c) = some (v.getD c) := by
            simp [opAt, hpq]
          rw [this]
          exact ht _
        · refine Or.inr (Or.inr ⟨t, fun v => ?_⟩)
          show foldAt p v (FsOp.writeIfAbsent q c :: rest) = some (v.getD t)
          rw [foldAt_cons, opAt_skip p v (FsOp.writeIfAbsent q c) (fun hc => hpq hc.symm)]
          exact ht v

theorem niceF_idem {g : Option String → Option String} (h : NiceF g) (v : Option String) :
    g (g v) = g v := by
  rcases h with hconst | hid | ⟨t, ht⟩
  · exact hconst _ _
  · rw [hid, hid]
  · calc g (g v) = some ((g v).getD t) := ht _
    _ = some ((some (v.getD t)).getD t) := by rw [ht]
    _ = some (v.getD t) := rfl
    _ = g v := (ht v).symm

/-- Applying a run's operation list twice gives the same file system as
applying it once: removes and unconditional writes are absorbing, and the
guarded .go write finds its own output (or the prior file) present. -/
theorem runFsOps_idem (fs : FS) (ops : List FsOp) :
    runFsOps (runFsOps fs ops) ops = runFsOps fs ops := by
  funext p
  rw [runFsOps_pointwise, runFsOps_pointwise ops fs p]
  exact niceF_idem (niceF_foldAt ops p) (fs p)

/-! ## Sanitizer lemmas -/

theorem spaceCodes_not_keep :
    ∀ n ∈ pySpaceCodes, (alnumCode n || n == 95 || n == 45) = false := by decide

theorem keep_not_space (c : Char) (h : sanitizeKeep c = true) : pyIsSpace c = false := by
  cases hsp : pyIsSpace c with
  | false => rfl
  | true =>
    exfalso
    have hmem : c.toNat ∈ pySpaceCodes := by
      have := hsp
      simp only [pyIsSpace, List.contains, List.elem_eq_mem, decide_eq_true_eq] at this
      exact this
    have hno := spaceCodes_not_keep c.toNat hmem
    simp only [sanitizeKeep, pyIsAlnum, Bool.or_eq_true] at h
    simp only [Bool.or_eq_false_iff] at hno
    rcases h with (ha | hu) | hh
    · rw [ha] at hno; exact Bool.false_ne_true hno.1.1.symm
    · have : c = '_' := eq_of_beq hu
      subst this
      exact absurd hno.1.2 (by decide)
    · have : c = '-' := eq_of_beq hh
      subst this
      exact absurd hno.2 (by decide)

theorem keep_ne_space (c : Char) (h : sanitizeKeep c = true) : c ≠ ' ' := by
  intro he
  subst he
  exact absurd h (by decide)

theorem dropWhile_all_false {p : Char → Bool} {l : List Char}
    (h : ∀ c ∈ l, p c = false) : l.dropWhile p = l := by
  cases l with
  | nil => rfl
  | cons x xs =>
    rw [List.dropWhile_cons, h x (List.mem_cons_self _ _)]
    rfl

theorem pyStrip_of_keep {l : List Char} (h : ∀ c ∈ l, sanitizeKeep c = true) :
    pyStrip l = l := by
  have h1 : ∀ c ∈ l, pyIsSpace c = false := fun c hc => keep_not_space c (h c hc)
  unfold pyStrip
  rw [dropWhile_all_false h1, dropWhile_all_false, List.reverse_reverse]
  intro c hc
  exact h1 c (List.mem_reverse.mp hc)

theorem sanitize_id_fixed {l : List Char} (hne : l ≠ [])
    (h : ∀ c ∈ l, sanitizeKeep c = true) : sanitize_id (String.mk l) = String.mk l := by
  unfold sanitize_id
  show (if (((pyStrip l).map fun c => if c = ' ' then '_' else c).filter sanitizeKeep).isEmpty
        then "prototype"
        else String.mk (((pyStrip l).map fun c => if c = ' ' then '_' else c).filter sanitizeKeep))
      = String.mk l
  rw [pyStrip_of_keep h]
  have hmap : (l.map fun c => if c = ' ' then '_' else c) = l := by
    conv_rhs => rw [← List.map_id l]
    exact List.map_congr_left fun a ha => if_neg (keep_ne_space a (h a ha))
  rw [hmap]
  have hfilter : l.filter sanitizeKeep = l := List.filter_eq_self.mpr h
  rw [hfilter]
  have hie : l.isEmpty = false := by
    cases l with
    | nil => exact absurd rfl hne
    | cons x xs => rfl
  rw [hie]
  rfl

/-- Claim C4 (counterexample): the sanitizer's output does not always match
`[A-Za-z0-9_-]+` — Python's `isalnum` is Unicode-aware, so `sanitize_id "é"`
returns `"é"`, which contains a character outside the claimed ASCII class. -/
theorem c4_sanitizer_counterexample :
    sanitize_id "é" = "é" ∧
    ((sanitize_id "é").data.all fun c => c.isAlphanum || c == '_' || c == '-') = false := by
  constructor
  · rfl
  · rfl

/-- Claim C4 (amended): for every input string the sanitizer returns a
non-empty string whose characters are each alphanumeric (in Python's
Unicode sense — `[A-Za-z0-9]` on ASCII input), `_`, or `-`; it strips
leading and trailing whitespace, turns remaining spaces into `_` and drops
the other disallowed characters; `sanitize_id "My Box!!" = "My_Box"`, and
an input that sanitizes to empty yields the fixed default `"prototype"`. -/
theorem c4_sanitizer_amended :
    (∀ s : String, sanitize_id s ≠ "" ∧ ∀ c ∈ (sanitize_id s).data, sanitizeKeep c = true) ∧
    sanitize_id "My Box!!" = "My_Box" ∧ sanitize_id "" = "prototype" := by
  refine ⟨fun s => ?_, rfl, rfl⟩
  by_cases h : (((pyStrip s.data).map fun c => if c = ' ' then '_' else c).filter
      sanitizeKeep).isEmpty
  · have hs : sanitize_id s = "prototype" := by
      unfold sanitize_id
      simp only [h, if_true]
    rw [hs]
    exact ⟨by decide, by decide⟩
  · have hs : sanitize_id s = String.mk (((pyStrip s.data).map fun c =>
        if c = ' ' then '_' else c).filter sanitizeKeep) := by
      have h2 : (((pyStrip s.data).map fun c => if c = ' ' then '_' else c).filter
          sanitizeKeep).isEmpty = false := by
        cases hx : (((pyStrip s.data).map fun c => if c = ' ' then '_' else c).filter
            sanitizeKeep).isEmpty
        · rfl
        · exact absurd hx h
      unfold sanitize_id
      simp only [h2]
      rfl
    rw [hs]
    constructor
    · intro hempty
      have : (((pyStrip s.data).map fun c => if c = ' ' then '_' else c).filter
          sanitizeKeep) = [] := congrArg String.data hempty
      rw [this] at h
      exact h rfl
    · intro c hc
      exact (List.mem_filter.mp hc).2

/-- Claim C10: the identifier sanitizer is idempotent — sanitizing an
already sanitized string returns it unchanged (its characters all survive
the strip, the space replacement and the filter, and the fallback value
"prototype" is itself a fixed point). -/
theorem c10_sanitize_idempotent :
    ∀ s : String, sanitize_id (sanitize_id s) = sanitize_id s := by
  intro s
  by_cases h : (((pyStrip s.data).map fun c => if c = ' ' then '_' else c).filter
      sanitizeKeep).isEmpty
  · have hs : sanitize_id s = "prototype" := by
      unfold sanitize_id
      simp only [h, if_true]
    rw [hs]
    rfl
  · have hs : sanitize_id s = String.mk (((pyStrip s.data).map fun c =>
        if c = ' ' then '_' else c).filter sanitizeKeep) := by
      have h2 : (((pyStrip s.data).map fun c => if c = ' ' then '_' else c).filter
          sanitizeKeep).isEmpty = false := by
        cases hx : (((pyStrip s.data).map fun c => if c = ' ' then '_' else c).filter
            sanitizeKeep).isEmpty
        · rfl
        · exact absurd hx h
      unfold sanitize_id
      simp only [h2]
      rfl
    rw [hs]
    apply sanitize_id_fixed
    · intro hnil
      rw [hnil] at h
      exact h rfl
    · intro c hc
      exact (List.mem_filter.mp hc).2

/-! ## Emission lemmas -/

theorem append_ne_empty_right {x y : String} (h : y ≠ "") : x ++ y ≠ "" := by
  intro hc
  apply h
  have hd : (x ++ y).data = [] := congrArg String.data hc
  rw [String.data_append] at hd
  rcases List.append_eq_nil.mp hd with ⟨_, h2⟩
  apply congrArg String.mk h2

theorem ite_ne_empty_iff {c : Prop} [Decidable c] {s : String} (hs : s ≠ "") :
    ((if c then s else "") = "") ↔ ¬ c := by
  by_cases hc : c
  · simp [hc, hs]
  · simp [hc]

/-- Claim C6: the position, rotation and scale sub-blocks of an instance
block are emitted exactly whened the corresponding component deviates from
identity by more than the 1e-9 tolerance; an instance at the origin with
identity rotation and unit scale emits no sub-block, one at (1e-10, 0, 0)
also emits none, and one at (1e-8, 0, 0) emits a position sub-block. -/
theorem c6_default_omission :
    (∀ inst : Inst,
      (posBlockOf inst = "" ↔
        ¬ (omitTol < ratAbs inst.pos.1 ∨ omitTol < ratAbs inst.pos.2.1 ∨
           omitTol < ratAbs inst.pos.2.2)) ∧
      (rotBlockOf inst = "" ↔
        ¬ (omitTol < ratAbs inst.quat.1 ∨ omitTol < ratAbs inst.quat.2.1 ∨
           omitTol < ratAbs inst.quat.2.2.1 ∨
           omitTol < ratAbs (ratSub inst.quat.2.2.2 (mkRat 1 1)))) ∧
      (scaleBlockOf inst = "" ↔
        ¬ (omitTol < ratAbs (ratSub inst.scale.1 (mkRat 1 1)) ∨
           omitTol < ratAbs (ratSub inst.scale.2.1 (mkRat 1 1)) ∨
           omitTol < ratAbs (ratSub inst.scale.2.2 (mkRat 1 1))))) ∧
    instanceText instAtOrigin =
      "instances \x7b\n  id: \"crate_001\"\n  prototype: \"/assets/prefabs/crate.go\"\n\x7d\n" ∧
    instanceText instTiny =
      "instances \x7b\n  id: \"crate_001\"\n  prototype: \"/assets/prefabs/crate.go\"\n\x7d\n" ∧
    posBlockOf instSmall ≠ "" ∧ rotBlockOf instSmall = "" ∧ scaleBlockOf instSmall = "" := by
  refine ⟨fun inst => ⟨?_, ?_, ?_⟩, by decide, by decide, by decide, by decide, by decide⟩
  · exact ite_ne_empty_iff (append_ne_empty_right (by decide))
  · exact ite_ne_empty_iff (append_ne_empty_right (by decide))
  · exact ite_ne_empty_iff (append_ne_empty_right (by decide))

/-- Claim C2 (counterexample): the convex-hull file's coordinate floats are
written with Python's default float formatting, not the 6-decimal fixed
formatting the claim asserts — a hull vertex (0.5, 0, 0) produces the line
`data: 0.5`, not `data: 0.500000`. -/
theorem c2_hull_format_counterexample :
    convexHullText [(mkRat 1 2, 0, 0)] =
      "shape_type: TYPE_HULL\ndata: 0.5\ndata: 0.0\ndata: 0.0\n" ∧
    convexHullText [(mkRat 1 2, 0, 0)] ≠
      "shape_type: TYPE_HULL\n" ++
      "data: " ++ fmtFixed 6 (mkRat 1 2) ++ "\n" ++
      "data: " ++ fmtFixed 6 0 ++ "\n" ++
      "data: " ++ fmtFixed 6 0 ++ "\n" := by
  constructor
  · rfl
  · decide

set_option maxRecDepth 8000 in
/-- Claim C2 (amended): running the scene compiler twice on an unchanged
scene produces byte-identical output files (the second run's operations map
the first run's file system to itself); the scene file's floats are emitted
with stable 6-decimal formatting, friction and restitution with stable
3-decimal formatting, while the convex-hull file's coordinates use Python's
default float representation (see the counterexample). -/
theorem c2_idempotence_amended :
    (∀ (s : Settings) (objects : List Obj) (fs : FS),
      runFsOps (runFsOps fs (run_export_scene s objects).1) (run_export_scene s objects).1
        = runFsOps fs (run_export_scene s objects).1) ∧
    make_collisionobject_text "/assets/collisions/x.convexshape" "default" "default" =
      "collision_shape: \"/assets/collisions/x.convexshape\"\n" ++
      "type: COLLISION_OBJECT_TYPE_STATIC\n" ++
      "mass: 0.0\n" ++
      "friction: 0.100\n" ++
      "restitution: 0.500\n" ++
      "group: \"default\"\n" ++
      "mask: \"default\"\n" ∧
    posBlockOf { instAtOrigin with pos := (mkRat 3 2, 0, 0) } =
      "  position \x7b\n    x: 1.500000\n    y: 0.000000\n    z: 0.000000\n  \x7d\n" := by
  refine ⟨fun s objects fs => runFsOps_idem fs _, by decide, by decide⟩

/-- Claim C7: on the failure exit where the material is not found among the
object's slots, the gateway returns failure with the render engine, bake
passes and node graph restored — but the scene's selection and active
object remain mutated (`_set_active_object` is never undone on any exit
path), contradicting the required restoration of selection state. -/
theorem c7_bake_cleanup_bug :
    bake_color_emit_png c7St c7Obj c7Mat "crate__BakedMat_albedo" true =
      (false, { c7St with selectedObjects := ["Cube"], activeObject := some "Cube" }) ∧
    (bake_color_emit_png c7St c7Obj c7Mat "crate__BakedMat_albedo" true).2.selectedObjects
      ≠ c7St.selectedObjects ∧
    (bake_color_emit_png c7St c7Obj c7Mat "crate__BakedMat_albedo" true).2.engine
      = c7St.engine ∧
    (bake_color_emit_png c7St c7Obj c7Mat "crate__BakedMat_albedo" true).2.surfaceLinks
      = c7St.surfaceLinks := by
  refine ⟨by decide, by decide, by decide, by decide⟩

/-! ## Batch-abort lemmas -/

theorem runExportBatch_ok_prefix (s : Settings) (pre : List Obj) :
    ∀ (rest : List Obj) (n : Nat) (acc : List FsOp),
    (∀ p ∈ pre, ∃ pr, (export_single_prototype_assets s p).2 = Except.ok pr) →
    runExportBatch s (pre ++ rest) n acc =
      runExportBatch s rest (n + pre.length)
        (acc ++ pre.flatMap fun p => (export_single_prototype_assets s p).1) := by
  induction pre with
  | nil => intro rest n acc _; simp
  | cons p ps ih =>
    intro rest n acc hok
    obtain ⟨pr, hpr⟩ := hok p (List.mem_cons_self _ _)
    rw [List.cons_append]
    rw [show runExportBatch s (p :: (ps ++ rest)) n acc =
        (match (export_single_prototype_assets s p).2 with
         | .ok _ => runExportBatch s (ps ++ rest) (n + 1)
             (acc ++ (export_single_prototype_assets s p).1)
         | .error e => (acc ++ (export_single_prototype_assets s p).1, .error e)) from rfl]
    rw [hpr]
    have hok2 : ∀ q ∈ ps, ∃ pr, (export_single_prototype_assets s q).2 = Except.ok pr :=
      fun q hq => hok q (List.mem_cons_of_mem _ hq)
    rw [ih rest (n + 1) (acc ++ (export_single_prototype_assets s p).1) hok2]
    simp only [List.length_cons, List.flatMap_cons]
    rw [← List.append_assoc]
    have hn : n + 1 + ps.length = n + (ps.length + 1) := by omega
    rw [hn, List.append_assoc]

theorem runExportBatch_error_head (s : Settings) (o : Obj) (post : List Obj)
    (n : Nat) (acc : List FsOp) (e : String)
    (herr : (export_single_prototype_assets s o).2 = Except.error e) :
    runExportBatch s (o :: post) n acc =
      (acc ++ (export_single_prototype_assets s o).1, Except.error e) := by
  rw [show runExportBatch s (o :: post) n acc =
      (match (export_single_prototype_assets s o).2 with
       | .ok _ => runExportBatch s post (n + 1)
           (acc ++ (export_single_prototype_assets s o).1)
       | .error e => (acc ++ (export_single_prototype_assets s o).1, .error e)) from rfl]
  rw [herr]

/-- Claim C8: inside the all-prototypes batch, an error raised by the
per-prototype exporter propagates and aborts the whole batch: the batch's
result is that error, the operations performed are exactly those of the
representatives before the failing one (plus whatever the failing export
performed before raising — nothing, for the validation errors), and the
operator reports the error text.  No prototype after the failing one is
exported. -/
theorem c8_batch_abort (s : Settings) (objects : List Obj)
    (pre post : List Obj) (o : Obj) (e : String)
    (hreps : sortedReps s objects = pre ++ o :: post)
    (hok : ∀ p ∈ pre, ∃ pr, (export_single_prototype_assets s p).2 = Except.ok pr)
    (herr : (export_single_prototype_assets s o).2 = Except.error e)
    (hne : (groupsOf s objects).isEmpty = false) :
    export_all_prototypes_assets_no_scene s objects =
      ((pre.flatMap fun p => (export_single_prototype_assets s p).1) ++
        (export_single_prototype_assets s o).1, Except.error e) ∧
    operatorExportAllPrototypes s objects = (false, e) := by
  have hb : export_all_prototypes_assets_no_scene s objects =
      runExportBatch s (sortedReps s objects) 0 [] := by
    simp [export_all_prototypes_assets_no_scene, hne]
  have h1 : export_all_prototypes_assets_no_scene s objects =
      ((pre.flatMap fun p => (export_single_prototype_assets s p).1) ++
        (export_single_prototype_assets s o).1, Except.error e) := by
    rw [hb, hreps, runExportBatch_ok_prefix s pre (o :: post) 0 [] hok,
      runExportBatch_error_head s o post _ _ e herr]
    rw [List.nil_append]
  refine ⟨h1, ?_⟩
  unfold operatorExportAllPrototypes
  rw [h1]

/-- Claim C8 (witness): with an invalid project root and prototypes
"alpha", "beta", the first export in sorted order fails and the batch
aborts with that error and no file-system operations; the operator is
cancelled with the error text. -/
theorem c8_batch_abort_witness :
    export_all_prototypes_assets_no_scene c8wS c8wObjs
        = ([], Except.error "Project Root is empty or not found.") ∧
    operatorExportAllPrototypes c8wS c8wObjs
        = (false, "Project Root is empty or not found.") := by
  have h := c8_batch_abort c8wS c8wObjs [] [plainObj "beta"] (plainObj "alpha")
    "Project Root is empty or not found." (by decide) (by simp) rfl (by decide)
  exact ⟨by rw [h.1]; rfl, h.2⟩

/-! ## Material-deduplication lemmas -/

theorem iterUniqueAux_map_ptr : ∀ (slots : List (Option Mat)) (seen : List Nat),
    (iterUniqueAux slots seen).map Mat.ptr =
      dedupSeen seen ((slots.filterMap id).map Mat.ptr) := by
  intro slots
  induction slots with
  | nil => intro seen; rfl
  | cons s rest ih =>
    intro seen
    cases s with
    | none =>
      simp only [List.filterMap_cons]
      exact ih seen
    | some m =>
      simp only [iterUniqueAux, List.filterMap_cons, List.map_cons, dedupSeen]
      by_cases h : m.ptr ∈ seen
      · simp [h, ih seen]
      · simp [h, ih (m.ptr :: seen)]

theorem dedupKeepFirst_cons (x : Nat) (l : List Nat) :
    dedupKeepFirst (x :: l) = x :: dedupKeepFirst (l.filter fun y => y ≠ x) := by
  rw [dedupKeepFirst.eq_2]

theorem dedupSeen_eq : ∀ (l : List Nat) (seen : List Nat),
    dedupSeen seen l = dedupKeepFirst (l.filter fun x => !(seen.contains x)) := by
  intro l
  induction l with
  | nil =>
    intro seen
    show dedupSeen seen [] = dedupKeepFirst []
    rw [dedupKeepFirst.eq_1]
    rfl
  | cons x xs ih =>
    intro seen
    by_cases h : x ∈ seen
    · have h1 : dedupSeen seen (x :: xs) = dedupSeen seen xs := by
        simp [dedupSeen, h]
      have h2 : ((x :: xs).filter fun y => !(seen.contains y)) =
          xs.filter fun y => !(seen.contains y) := by
        simp [List.filter_cons, h]
      rw [h1, h2, ih seen]
    · have htail : (xs.filter fun y => !((x :: seen).contains y)) =
          ((xs.filter fun y => !(seen.contains y)).filter fun y => decide (y ≠ x)) := by
        rw [List.filter_filter]
        refine List.filter_congr fun a _ => ?_
        by_cases hax : a = x
        · subst hax
          simp
        · simp [hax]
      have h1 : dedupSeen seen (x :: xs) = x :: dedupSeen (x :: seen) xs := by
        simp [dedupSeen, h]
      have h2 : ((x :: xs).filter fun y => !(seen.contains y)) =
          x :: (xs.filter fun y => !(seen.contains y)) := by
        simp [List.filter_cons, h]
      rw [h1, h2, dedupKeepFirst_cons, ih (x :: seen), htail]

theorem blockForMat_name (s : Settings) (obj : Obj) (proto absTex : String) (m : Mat) :
    (blockForMat s obj proto absTex m).1.1 =
      if m.name ≠ "" then m.name else "default" := by
  unfold blockForMat
  by_cases hb : m.bakeColorTexture = true
  · simp only [hb, if_true]
    rfl
  · simp only [hb]
    rfl

theorem blocksLoop_map_name (s : Settings) (obj : Obj) (proto absTex : String) :
    ∀ ms : List Mat,
    ((blocksLoop s obj proto absTex ms).1.map fun b => b.1) =
      ms.map (fun m => if m.name ≠ "" then m.name else "default") ∧
    (blocksLoop s obj proto absTex ms).1.length = ms.length := by
  intro ms
  induction ms with
  | nil => exact ⟨rfl, rfl⟩
  | cons m rest ih =>
    refine ⟨?_, ?_⟩
    · show ((blockForMat s obj proto absTex m).1 ::
          (blocksLoop s obj proto absTex rest).1).map (fun b => b.1) = _
      rw [List.map_cons, ih.1, blockForMat_name, List.map_cons]
    · show ((blockForMat s obj proto absTex m).1 ::
          (blocksLoop s obj proto absTex rest).1).length = _
      rw [List.length_cons, ih.2, List.length_cons]

/-- Claim C5: the material resolver produces exactly one
(name, material, texture) triple per unique material of the mesh —
deduplicated by reference in first-occurrence order (the pointer sequence
of the deduplicated list is exactly the keep-first deduplication of the
slots' pointer sequence) — a mesh with zero materials yields exactly one
binding named "default", slots [A, B, A] by reference collapse to the two
bindings [A, B] in order. -/
theorem c5_material_resolver :
    (∀ (s : Settings) (obj : Obj) (proto absTex : String),
      (iter_unique_materials_in_order obj).map Mat.ptr =
        dedupKeepFirst ((obj.materials.filterMap id).map Mat.ptr) ∧
      ((blocksAndOps s obj proto absTex).1.map fun b => b.1) =
        (if (iter_unique_materials_in_order obj).isEmpty then ["default"]
         else (iter_unique_materials_in_order obj).map fun m =>
           if m.name ≠ "" then m.name else "default") ∧
      (blocksAndOps s obj proto absTex).1.length =
        (if (iter_unique_materials_in_order obj).isEmpty then 1
         else (iter_unique_materials_in_order obj).length)) ∧
    (iter_unique_materials_in_order objABA).map Mat.name = ["A", "B"] ∧
    ((blocksAndOps baseSettings objABA "thing" "/proj/assets/textures").1.map
      fun b => b.1) = ["A", "B"] ∧
    ((blocksAndOps baseSettings (plainObj "empty") "empty" "/proj/assets/textures").1.map
      fun b => b.1) = ["default"] := by
  refine ⟨fun s obj proto absTex => ⟨?_, ?_, ?_⟩, by decide, by decide, by decide⟩
  · unfold iter_unique_materials_in_order
    rw [iterUniqueAux_map_ptr, dedupSeen_eq]
    congr 1
    refine (List.filter_eq_self.mpr fun a _ => ?_)
    rfl
  · by_cases h : (iter_unique_materials_in_order obj).isEmpty = true
    · rw [h, if_pos rfl]
      simp only [blocksAndOps, h, if_true]
      rfl
    · have hf : (iter_unique_materials_in_order obj).isEmpty = false := by
        cases hx : (iter_unique_materials_in_order obj).isEmpty
        · rfl
        · exact absurd hx h
      rw [hf]
      simp only [blocksAndOps, hf, Bool.false_eq_true, if_false]
      exact (blocksLoop_map_name s obj proto absTex _).1
  · by_cases h : (iter_unique_materials_in_order obj).isEmpty = true
    · rw [h, if_pos rfl]
      simp only [blocksAndOps, h, if_true]
      rfl
    · have hf : (iter_unique_materials_in_order obj).isEmpty = false := by
        cases hx : (iter_unique_materials_in_order obj).isEmpty
        · rfl
        · exact absurd hx h
      rw [hf]
      simp only [blocksAndOps, hf, Bool.false_eq_true, if_false]
      exact (blocksLoop_map_name s obj proto absTex _).2

/-! ## Grouping lemmas -/

theorem addToGroup_lookup : ∀ (gs : List (String × List Obj)) (k : String) (o : Obj)
    (k0 : String),
    groupLookup (addToGroup gs k o) k0 =
      if k0 = k then some (((groupLookup gs k).getD []) ++ [o]) else groupLookup gs k0 := by
  intro gs
  induction gs with
  | nil =>
    intro k o k0
    show (if k = k0 then some [o] else none) =
      if k0 = k then some (((none : Option (List Obj)).getD []) ++ [o]) else none
    by_cases h : k0 = k
    · rw [if_pos h.symm, if_pos h]
      rfl
    · rw [if_neg (fun hc => h hc.symm), if_neg h]
  | cons p rest ih =>
    intro k o k0
    obtain ⟨k1, l1⟩ := p
    by_cases h1 : k1 = k
    · have ha : addToGroup ((k1, l1) :: rest) k o = (k1, l1 ++ [o]) :: rest := by
        simp [addToGroup, h1]
      rw [ha]
      show (if k1 = k0 then some (l1 ++ [o]) else groupLookup rest k0) = _
      by_cases h0 : k0 = k
      · have h10 : k1 = k0 := h1.trans h0.symm
        rw [if_pos h10, if_pos h0]
        have hlk : groupLookup ((k1, l1) :: rest) k = some l1 := by
          show (if k1 = k then some l1 else groupLookup rest k) = some l1
          rw [if_pos h1]
        rw [hlk]
        rfl
      · have h10 : ¬ k1 = k0 := fun hc => h0 (hc.symm.trans h1)
        rw [if_neg h10, if_neg h0]
        show groupLookup rest k0 = (if k1 = k0 then some l1 else groupLookup rest k0)
        rw [if_neg h10]
    · have ha : addToGroup ((k1, l1) :: rest) k o = (k1, l1) :: addToGroup rest k o := by
        simp [addToGroup, h1]
      rw [ha]
      show (if k1 = k0 then some l1 else groupLookup (addToGroup rest k o) k0) = _
      by_cases h0 : k1 = k0
      · rw [if_pos h0]
        have hk0 : ¬ k0 = k := fun hc => h1 (h0.trans hc)
        rw [if_neg hk0]
        show some l1 = (if k1 = k0 then some l1 else groupLookup rest k0)
        rw [if_pos h0]
      · rw [if_neg h0, ih k o k0]
        by_cases hk0 : k0 = k
        · rw [if_pos hk0, if_pos hk0]
          have hrw : groupLookup ((k1, l1) :: rest) k = groupLookup rest k := by
            show (if k1 = k then some l1 else groupLookup rest k) = _
            rw [if_neg h1]
          rw [hrw]
        · rw [if_neg hk0, if_neg hk0]
          show groupLookup rest k0 = (if k1 = k0 then some l1 else groupLookup rest k0)
          rw [if_neg h0]

theorem foldGroups_lookup (s : Settings) : ∀ (objects : List Obj)
    (gs : List (String × List Obj)) (k : String),
    groupLookup (objects.foldl (groupStep s) gs) k =
      match groupLookup gs k with
      | some l => some (l ++ objects.filter fun o =>
          eligibleForExport s o && (sanitizedKeyOf o == some k))
      | none =>
        if (objects.filter fun o =>
            eligibleForExport s o && (sanitizedKeyOf o == some k)).isEmpty then none
        else some (objects.filter fun o =>
          eligibleForExport s o && (sanitizedKeyOf o == some k)) := by
  intro objects
  induction objects with
  | nil =>
    intro gs k
    cases h : groupLookup gs k <;> simp [h]
  | cons o rest ih =>
    intro gs k
    rw [List.foldl_cons]
    by_cases hm : o.objType = "MESH"
    · by_cases hv : s.exportVisibleOnly = true ∧ ¬ is_object_visible o = true
      · have hstep : groupStep s gs o = gs := by
          unfold groupStep
          rw [if_neg (fun hc => hc hm), if_pos hv]
        have hvis : is_object_visible o = false := by
          cases hx : is_object_visible o
          · rfl
          · exact absurd hx hv.2
        have hel : eligibleForExport s o = false := by
          simp [eligibleForExport, hm, hv.1, hvis]
        rw [hstep, ih gs k]
        simp [List.filter_cons, hel]
      · cases hp : protoOf o with
        | none =>
          have hstep : groupStep s gs o = gs := by
            unfold groupStep
            rw [if_neg (fun hc => hc hm), if_neg hv, hp]
          have hel : eligibleForExport s o = false := by
            simp [eligibleForExport, hp]
          rw [hstep, ih gs k]
          simp [List.filter_cons, hel]
        | some raw =>
          have hstep : groupStep s gs o = addToGroup gs (sanitize_id raw) o := by
            unfold groupStep
            rw [if_neg (fun hc => hc hm), if_neg hv, hp]
          have hvis : (!s.exportVisibleOnly || is_object_visible o) = true := by
            by_cases h1 : s.exportVisibleOnly = true
            · have h2 : is_object_visible o = true := by
                by_contra h3
                exact hv ⟨h1, h3⟩
              simp [h1, h2]
            · have h1f : s.exportVisibleOnly = false := by
                cases hx : s.exportVisibleOnly
                · rfl
                · exact absurd hx h1
              simp [h1f]
          have hel : eligibleForExport s o = true := by
            simp [eligibleForExport, hm, hvis, hp]
          rw [hstep, ih (addToGroup gs (sanitize_id raw) o) k,
            addToGroup_lookup gs (sanitize_id raw) o k]
          by_cases hk : k = sanitize_id raw
          · subst hk
            rw [if_pos rfl]
            have hpred : (eligibleForExport s o &&
                (sanitizedKeyOf o == some (sanitize_id raw))) = true := by
              simp [hel, sanitizedKeyOf, hp]
            cases hgs : groupLookup gs (sanitize_id raw) with
            | some l => simp [List.filter_cons, hpred, hgs]
            | none => simp [List.filter_cons, hpred, hgs]
          · rw [if_neg hk]
            have hks : ¬ sanitize_id raw = k := fun hc => hk hc.symm
            have hpred : (eligibleForExport s o && (sanitizedKeyOf o == some k)) = false := by
              simp [sanitizedKeyOf, hp, hks]
            simp [List.filter_cons, hpred]
    · have hstep : groupStep s gs o = gs := by
        unfold groupStep
        rw [if_pos hm]
      have hel : eligibleForExport s o = false := by
        simp [eligibleForExport, hm]
      rw [hstep, ih gs k]
      simp [List.filter_cons, hel]

/-- The grouping of a scene maps each key to exactly the eligible objects
whose sanitized prototype id equals that key, in scene order. -/
theorem groupsOf_lookup (s : Settings) (objects : List Obj) (k : String) :
    groupLookup (groupsOf s objects) k =
      (if (objects.filter fun o =>
          eligibleForExport s o && (sanitizedKeyOf o == some k)).isEmpty then none
       else some (objects.filter fun o =>
         eligibleForExport s o && (sanitizedKeyOf o == some k))) := by
  unfold groupsOf
  rw [foldGroups_lookup]
  rfl

theorem addToGroup_keys (gs : List (String × List Obj)) (k : String) (o : Obj) :
    (addToGroup gs k o).map Prod.fst =
      if k ∈ gs.map Prod.fst then gs.map Prod.fst else gs.map Prod.fst ++ [k] := by
  induction gs with
  | nil => simp [addToGroup]
  | cons p rest ih =>
    obtain ⟨k1, l1⟩ := p
    by_cases h1 : k1 = k
    · subst h1
      simp [addToGroup]
    · have hns : ¬ k = k1 := fun hc => h1 hc.symm
      simp only [addToGroup, if_neg h1, List.map_cons, ih, List.mem_cons]
      by_cases hm : k ∈ rest.map Prod.fst
      · simp [hm, hns]
      · simp [hm, hns]

theorem addToGroup_keys_nodup {gs : List (String × List Obj)} {k : String} {o : Obj}
    (h : (gs.map Prod.fst).Nodup) : ((addToGroup gs k o).map Prod.fst).Nodup := by
  rw [addToGroup_keys]
  by_cases hm : k ∈ gs.map Prod.fst
  · rwa [if_pos hm]
  · rw [if_neg hm]
    simp [List.nodup_append, h, hm]

theorem groupsOf_keys_nodup (s : Settings) (objects : List Obj) :
    ((groupsOf s objects).map Prod.fst).Nodup := by
  suffices hgen : ∀ (os : List Obj) (gs : List (String × List Obj)),
      (gs.map Prod.fst).Nodup → (((os.foldl (groupStep s) gs)).map Prod.fst).Nodup by
    exact hgen objects [] List.nodup_nil
  intro os
  induction os with
  | nil => intro gs h; exact h
  | cons o rest ih =>
    intro gs h
    rw [List.foldl_cons]
    apply ih
    unfold groupStep
    split
    · exact h
    · split
      · exact h
      · split
        · exact h
        · exact addToGroup_keys_nodup h

theorem addToGroup_values_ne_nil {gs : List (String × List Obj)} {k : String} {o : Obj}
    (h : ∀ g ∈ gs, g.2 ≠ []) : ∀ g ∈ addToGroup gs k o, g.2 ≠ [] := by
  induction gs with
  | nil =>
    intro g hg
    simp only [addToGroup, List.mem_singleton] at hg
    subst hg
    simp
  | cons p rest ih =>
    obtain ⟨k1, l1⟩ := p
    intro g hg
    by_cases h1 : k1 = k
    · simp only [addToGroup, if_pos h1, List.mem_cons] at hg
      rcases hg with hg | hg
      · subst hg
        simp
      · exact h g (List.mem_cons_of_mem _ hg)
    · simp only [addToGroup, if_neg h1, List.mem_cons] at hg
      rcases hg with hg | hg
      · subst hg
        exact h (k1, l1) (List.mem_cons_self _ _)
      · exact ih (fun g2 hg2 => h g2 (List.mem_cons_of_mem _ hg2)) g hg

theorem groupsOf_values_ne_nil (s : Settings) (objects : List Obj) :
    ∀ g ∈ groupsOf s objects, g.2 ≠ [] := by
  suffices hgen : ∀ (os : List Obj) (gs : List (String × List Obj)),
      (∀ g ∈ gs, g.2 ≠ []) → ∀ g ∈ os.foldl (groupStep s) gs, g.2 ≠ [] by
    exact hgen objects [] (by simp)
  intro os
  induction os with
  | nil => intro gs h; exact h
  | cons o rest ih =>
    intro gs h
    rw [List.foldl_cons]
    apply ih
    unfold groupStep
    split
    · exact h
    · split
      · exact h
      · split
        · exact h
        · exact addToGroup_values_ne_nil h

theorem sceneReps_length (groups : List (String × List Obj))
    (h : ∀ g ∈ groups, g.2 ≠ []) : (sceneReps groups).length = groups.length := by
  induction groups with
  | nil => rfl
  | cons g rest ih =>
    have hg : g.2 ≠ [] := h g (List.mem_cons_self _ _)
    obtain ⟨x, xs, hx⟩ : ∃ x xs, g.2 = x :: xs := by
      cases hq : g.2 with
      | nil => exact absurd hq hg
      | cons x xs => exact ⟨x, xs, rfl⟩
    have hhead : g.2.head? = some x := by rw [hx]; rfl
    show (List.filterMap (fun g => g.2.head?) (g :: rest)).length = (g :: rest).length
    rw [List.filterMap_cons, hhead]
    have htail := ih (fun g2 hg2 => h g2 (List.mem_cons_of_mem _ hg2))
    simp only [sceneReps] at htail
    simp [htail]

/-- Claim C9: eligible objects whose raw prototype ids sanitize to the same
identifier land in one group — each grouping key maps to exactly the
eligible objects with that sanitized id in scene order, keys are pairwise
distinct, and the scene export runs the prototype exporter once per key on
the group's first member ("My Box" and "My_Box" merge into one "My_Box"
group whose representative is the first object, their instances sharing
one sequential counter). -/
theorem c9_sanitized_merge :
    (∀ (s : Settings) (objects : List Obj) (k : String),
      groupLookup (groupsOf s objects) k =
        (if (objects.filter fun o =>
            eligibleForExport s o && (sanitizedKeyOf o == some k)).isEmpty then none
         else some (objects.filter fun o =>
           eligibleForExport s o && (sanitizedKeyOf o == some k)))) ∧
    (∀ (s : Settings) (objects : List Obj),
      ((groupsOf s objects).map Prod.fst).Nodup ∧
      (sceneReps (groupsOf s objects)).length = (groupsOf s objects).length) ∧
    groupsOf baseSettings [plainObj "My Box", plainObj "My_Box"] =
      [("My_Box", [plainObj "My Box", plainObj "My_Box"])] ∧
    sceneReps (groupsOf baseSettings [plainObj "My Box", plainObj "My_Box"]) =
      [plainObj "My Box"] ∧
    (instsAux "My_Box" "/assets/prefabs/My_Box.go"
        [plainObj "My Box", plainObj "My_Box"] 0).map Inst.id =
      ["My_Box_001", "My_Box_002"] := by
  refine ⟨groupsOf_lookup, fun s objects => ⟨groupsOf_keys_nodup s objects,
    sceneReps_length _ (groupsOf_values_ne_nil s objects)⟩, by decide, by decide, by decide⟩

/-! ## Decimal-digit and instance-id lemmas -/

theorem decDigits_fuel (n : Nat) : ∀ (f1 f2 : Nat) (acc : List Char),
    n < f1 → n < f2 → decDigits f1 n acc = decDigits f2 n acc := by
  induction n using Nat.strong_induction_on with
  | _ n ih =>
    intro f1 f2 acc h1 h2
    cases f1 with
    | zero => omega
    | succ f1 =>
      cases f2 with
      | zero => omega
      | succ f2 =>
        by_cases hn : n < 10
        · simp [decDigits, hn]
        · simp only [decDigits, if_neg hn]
          have hdiv : n / 10 < n := Nat.div_lt_self (by omega) (by omega)
          exact ih (n / 10) hdiv f1 f2 _ (by omega) (by omega)

theorem decDigits_append (n : Nat) : ∀ (f : Nat) (acc : List Char),
    n < f → decDigits f n acc = decDigits f n [] ++ acc := by
  induction n using Nat.strong_induction_on with
  | _ n ih =>
    intro f acc hf
    cases f with
    | zero => omega
    | succ f =>
      by_cases hn : n < 10
      · simp [decDigits, hn]
      · simp only [decDigits, if_neg hn]
        have hdiv : n / 10 < n := Nat.div_lt_self (by omega) (by omega)
        rw [ih (n / 10) hdiv f _ (by omega), ih (n / 10) hdiv f [decDigitChar (n % 10)]
          (by omega), List.append_assoc]
        rfl

theorem decRepr_step (n : Nat) (h : ¬ n < 10) :
    decRepr n = decRepr (n / 10) ++ [decDigitChar (n % 10)] := by
  have hdiv : n / 10 < n := Nat.div_lt_self (by omega) (by omega)
  unfold decRepr
  rw [show decDigits (n + 1) n [] = decDigits n (n / 10) [decDigitChar (n % 10)] from by
    simp [decDigits, h]]
  rw [decDigits_append (n / 10) n _ (by omega),
    decDigits_fuel (n / 10) n (n / 10 + 1) [] (by omega) (by omega)]

/-- Numeric value read back from a digit list. -/
def digitsVal (l : List Char) : Nat := l.foldl (fun a c => a * 10 + (c.toNat - 48)) 0

theorem decDigitChar_toNat : ∀ k, k < 10 → (decDigitChar k).toNat = 48 + k := by decide

theorem digitsVal_decRepr : ∀ n, digitsVal (decRepr n) = n := by
  intro n
  induction n using Nat.strong_induction_on with
  | _ n ih =>
    by_cases hn : n < 10
    · have : decRepr n = [decDigitChar (n % 10)] := by
        simp [decRepr, decDigits, hn]
      rw [this]
      show 0 * 10 + ((decDigitChar (n % 10)).toNat - 48) = n
      rw [decDigitChar_toNat (n % 10) (by omega)]
      omega
    · have hdiv : n / 10 < n := Nat.div_lt_self (by omega) (by omega)
      rw [decRepr_step n hn]
      show (decRepr (n / 10) ++ [decDigitChar (n % 10)]).foldl
        (fun a c => a * 10 + (c.toNat - 48)) 0 = n
      rw [List.foldl_append]
      show digitsVal (decRepr (n / 10)) * 10 + ((decDigitChar (n % 10)).toNat - 48) = n
      rw [ih (n / 10) hdiv, decDigitChar_toNat (n % 10) (by omega)]
      omega

theorem digitsVal_replicate_zero (l : List Char) : ∀ w : Nat,
    digitsVal (List.replicate w '0' ++ l) = digitsVal l := by
  intro w
  induction w with
  | zero => rfl
  | succ w ih =>
    show digitsVal ('0' :: (List.replicate w '0' ++ l)) = digitsVal l
    show (List.replicate w '0' ++ l).foldl (fun a c => a * 10 + (c.toNat - 48))
      (0 * 10 + ('0'.toNat - 48)) = digitsVal l
    have : (0 * 10 + ('0'.toNat - 48)) = 0 := by decide
    rw [this]
    exact ih

theorem pad3str_injective {a b : Nat} (h : pad3str a = pad3str b) : a = b := by
  have hd : (List.replicate (3 - (decRepr a).length) '0' ++ decRepr a) =
      (List.replicate (3 - (decRepr b).length) '0' ++ decRepr b) :=
    congrArg String.data h
  have ha := digitsVal_replicate_zero (decRepr a) (3 - (decRepr a).length)
  have hb := digitsVal_replicate_zero (decRepr b) (3 - (decRepr b).length)
  have : digitsVal (decRepr a) = digitsVal (decRepr b) := by
    rw [← ha, ← hb, hd]
  rwa [digitsVal_decRepr, digitsVal_decRepr] at this

theorem decDigits_mem : ∀ (f n : Nat) (acc : List Char) (c : Char),
    c ∈ decDigits f n acc → c ∈ acc ∨ ∃ k, k < 10 ∧ c = decDigitChar k := by
  intro f
  induction f with
  | zero => intro n acc c hc; exact Or.inl hc
  | succ f ih =>
    intro n acc c hc
    by_cases hn : n < 10
    · simp only [decDigits, if_pos hn] at hc
      rcases List.mem_cons.mp hc with hc | hc
      · exact Or.inr ⟨n % 10, by omega, hc⟩
      · exact Or.inl hc
    · simp only [decDigits, if_neg hn] at hc
      rcases ih (n / 10) _ c hc with hc2 | hc2
      · rcases List.mem_cons.mp hc2 with hc3 | hc3
        · exact Or.inr ⟨n % 10, by omega, hc3⟩
        · exact Or.inl hc3
      · exact Or.inr hc2

theorem decDigitChar_ne_sep : ∀ k, k < 10 → decDigitChar k ≠ '_' := by decide

theorem pad3str_no_sep (n : Nat) : '_' ∉ (pad3str n).data := by
  intro hmem
  rcases List.mem_append.mp hmem with hmem | hmem
  · have := List.eq_of_mem_replicate hmem
    exact absurd this (by decide)
  · rcases decDigits_mem (n + 1) n [] '_' hmem with hc | ⟨k, hk, hc⟩
    · exact absurd hc (List.not_mem_nil _)
    · exact decDigitChar_ne_sep k hk hc.symm

theorem sep_split : ∀ (a1 a2 b1 b2 : List Char), '_' ∉ a1 → '_' ∉ a2 →
    a1 ++ '_' :: b1 = a2 ++ '_' :: b2 → a1 = a2 ∧ b1 = b2 := by
  intro a1
  induction a1 with
  | nil =>
    intro a2 b1 b2 _ h2 heq
    cases a2 with
    | nil =>
      simp only [List.nil_append] at heq
      exact ⟨rfl, (List.cons.injEq _ _ _ _).mp heq |>.2⟩
    | cons y ys =>
      exfalso
      simp only [List.nil_append, List.cons_append] at heq
      have hy : y = '_' := ((List.cons.injEq _ _ _ _).mp heq).1.symm
      exact h2 (hy ▸ List.mem_cons_self y ys)
  | cons x xs ih =>
    intro a2 b1 b2 h1 h2 heq
    cases a2 with
    | nil =>
      exfalso
      simp only [List.nil_append, List.cons_append] at heq
      have hx : x = '_' := ((List.cons.injEq _ _ _ _).mp heq).1
      exact h1 (hx ▸ List.mem_cons_self x xs)
    | cons y ys =>
      simp only [List.cons_append] at heq
      obtain ⟨hxy, htail⟩ := (List.cons.injEq _ _ _ _).mp heq
      obtain ⟨he1, he2⟩ := ih ys b1 b2 (fun hc => h1 (List.mem_cons_of_mem _ hc))
        (fun hc => h2 (List.mem_cons_of_mem _ hc)) htail
      exact ⟨by rw [hxy, he1], he2⟩

theorem instId_inj {p1 p2 : String} {c1 c2 : Nat}
    (h : p1 ++ "_" ++ pad3str c1 = p2 ++ "_" ++ pad3str c2) : p1 = p2 ∧ c1 = c2 := by
  have hd : p1.data ++ '_' :: (pad3str c1).data = p2.data ++ '_' :: (pad3str c2).data := by
    have := congrArg String.data h
    rw [String.data_append, String.data_append, String.data_append, String.data_append]
      at this
    simpa [List.append_assoc] using this
  have hr := congrArg List.reverse hd
  rw [List.reverse_append, List.reverse_append, List.reverse_cons, List.reverse_cons]
    at hr
  rw [List.append_assoc, List.append_assoc] at hr
  have hsep := sep_split ((pad3str c1).data.reverse) ((pad3str c2).data.reverse)
    (p1.data.reverse) (p2.data.reverse)
    (fun hc => pad3str_no_sep c1 (List.mem_reverse.mp hc))
    (fun hc => pad3str_no_sep c2 (List.mem_reverse.mp hc))
    (by simpa using hr)
  constructor
  · have : p1.data = p2.data := by
      have := congrArg List.reverse hsep.2
      simpa using this
    exact congrArg String.mk this
  · apply pad3str_injective
    have : (pad3str c1).data = (pad3str c2).data := by
      have := congrArg List.reverse hsep.1
      simpa using this
    exact congrArg String.mk this

theorem instsAux_ids (proto g : String) : ∀ (objs : List Obj) (c : Nat),
    (instsAux proto g objs c).map Inst.id =
      (List.range objs.length).map fun i => proto ++ "_" ++ pad3str (c + i + 1) := by
  intro objs
  induction objs with
  | nil => intro c; rfl
  | cons o rest ih =>
    intro c
    show (proto ++ "_" ++ pad3str (c + 1)) :: (instsAux proto g rest (c + 1)).map Inst.id
      = (List.range (rest.length + 1)).map fun i => proto ++ "_" ++ pad3str (c + i + 1)
    rw [List.range_succ_eq_map, List.map_cons, List.map_map, ih (c + 1)]
    congr 1
    refine List.map_congr_left fun i _ => ?_
    show proto ++ "_" ++ pad3str (c + 1 + i + 1) = proto ++ "_" ++ pad3str (c + (i + 1) + 1)
    rw [show c + 1 + i + 1 = c + (i + 1) + 1 from by omega]

theorem sceneIds_eq (s : Settings) (objects : List Obj) :
    (sceneInstances s objects).map Inst.id =
      (groupsOf s objects).flatMap fun g =>
        (List.range g.2.length).map fun i => g.1 ++ "_" ++ pad3str (i + 1) := by
  unfold sceneInstances instancesByProtoOf
  rw [List.map_flatMap, List.flatMap_map]
  have hfun : (fun (g : String × List Obj) =>
      (instsAux g.1 (goProjectPathOf s g.1) g.2 0).map Inst.id) =
      fun g => (List.range g.2.length).map fun i => g.1 ++ "_" ++ pad3str (i + 1) := by
    funext g
    rw [instsAux_ids]
    refine List.map_congr_left fun i _ => ?_
    show g.1 ++ "_" ++ pad3str (0 + i + 1) = g.1 ++ "_" ++ pad3str (i + 1)
    rw [show 0 + i + 1 = i + 1 from by omega]
  exact congrArg (List.flatMap (groupsOf s objects)) hfun

theorem sceneIds_nodup (s : Settings) (objects : List Obj) :
    ((sceneInstances s objects).map Inst.id).Nodup := by
  rw [sceneIds_eq]
  rw [List.nodup_flatMap]
  constructor
  · intro g _
    refine List.Nodup.map ?_ (List.nodup_range _)
    intro i j hij
    have := (instId_inj hij).2
    omega
  · have hkeys := groupsOf_keys_nodup s objects
    rw [List.Nodup, List.pairwise_map] at hkeys
    refine hkeys.imp ?_
    intro g g' hne x hx hx'
    obtain ⟨i, _, hi⟩ := List.mem_map.mp hx
    obtain ⟨j, _, hj⟩ := List.mem_map.mp hx'
    exact hne (instId_inj (hi.trans hj.symm)).1

theorem lastChar_append (a b : String) (h : b.data ≠ []) :
    lastChar (a ++ b) = lastChar b := by
  show ((a ++ b).data).getLast? = b.data.getLast?
  rw [String.data_append]
  exact List.getLast?_append_of_ne_nil _ h

theorem ne_of_lastChar {s t : String} (h : lastChar s ≠ lastChar t) : s ≠ t :=
  fun he => h (he ▸ rfl)

theorem data_ne_nil_append (x y : String) (h : y.data ≠ []) : (x ++ y).data ≠ [] := by
  rw [String.data_append]
  intro hc
  exact h (List.append_eq_nil.mp hc).2

theorem lastChar_pjoin (a b : String) (h : b.data ≠ []) :
    lastChar (pjoin a b) = lastChar b := by
  show lastChar (a ++ "/" ++ b) = lastChar b
  exact lastChar_append _ _ h

theorem lastChar_pjoin_ext (a proto ext : String) (h : ext.data ≠ []) :
    lastChar (pjoin a (proto ++ ext)) = lastChar ext := by
  rw [lastChar_pjoin _ _ (data_ne_nil_append _ _ h), lastChar_append _ _ h]

theorem lastChar_goPath (s : Settings) (proto : String) :
    lastChar (goPathOf s proto) = some 'o' := by
  unfold goPathOf
  rw [lastChar_pjoin_ext _ _ _ (by decide : (".go" : String).data ≠ [])]
  decide

theorem lastChar_modelPath (s : Settings) (proto : String) :
    lastChar (modelPathOf s proto) = some 'l' := by
  unfold modelPathOf
  rw [lastChar_pjoin_ext _ _ _ (by decide : (".model" : String).data ≠ [])]
  decide

theorem lastChar_baked (absT proto mn : String) :
    lastChar (pjoin absT (make_baked_texture_filename proto mn)) = some 'g' := by
  have hne : (make_baked_texture_filename proto mn).data ≠ [] := by
    show (proto ++ "__" ++ sanitize_id mn ++ "_albedo.png").data ≠ []
    exact data_ne_nil_append _ _ (by decide)
  rw [lastChar_pjoin _ _ hne]
  show lastChar (proto ++ "__" ++ sanitize_id mn ++ "_albedo.png") = some 'g'
  rw [lastChar_append _ _ (by decide : ("_albedo.png" : String).data ≠ [])]
  decide

theorem export_image_ops (img : Img) (d : String) :
    ∀ op ∈ (export_image_to_defold_project img d).2, ∃ q c, op = FsOp.fwrite q c := by
  intro op hop
  unfold export_image_to_defold_project at hop
  split at hop
  · split at hop
    · simp at hop
      exact ⟨_, _, hop⟩
    · simp at hop
      exact ⟨_, _, hop⟩
  · simp at hop
    exact ⟨_, _, hop⟩

theorem resolver_ops (s : Settings) (mat : Option Mat) (a t : String) (o : Option Obj) :
    ∀ op ∈ (resolve_defold_material_and_texture_for_material s mat a t o).2,
      ∃ q c, op = FsOp.fwrite q c := by
  intro op hop
  have hops : (resolve_defold_material_and_texture_for_material s mat a t o).2 = [] ∨
      ∃ img, (resolve_defold_material_and_texture_for_material s mat a t o).2 =
        (export_image_to_defold_project img a).2 := by
    unfold resolve_defold_material_and_texture_for_material
    simp only
    repeat' split
    all_goals first
      | exact Or.inl rfl
      | (rename_i hexp
         exact Or.inr ⟨_, congrArg Prod.snd hexp.symm⟩)
  rcases hops with hnil | ⟨img, himg⟩
  · rw [hnil] at hop
    simp at hop
  · rw [himg] at hop
    exact export_image_ops img a op hop

theorem blockForMat_snd (s : Settings) (obj : Obj) (proto absT : String) (m : Mat) :
    (blockForMat s obj proto absT m).2 =
      (resolve_defold_material_and_texture_for_material s (some m) absT
        s.texturesDir (some obj)).2 ++
      (if m.bakeColorTexture then
        [FsOp.remove (pjoin absT (make_baked_texture_filename proto
          (resolve_defold_material_and_texture_for_material s (some m) absT
            s.texturesDir (some obj)).1.1))] ++
        (if m.bakeOk then
          [FsOp.fwrite (pjoin absT (make_baked_texture_filename proto
            (resolve_defold_material_and_texture_for_material s (some m) absT
              s.texturesDir (some obj)).1.1)) m.bakeContent]
         else [])
       else []) := by
  by_cases hb : m.bakeColorTexture <;> simp [blockForMat, hb]

theorem blockForMat_ops (s : Settings) (obj : Obj) (proto absT : String) (m : Mat) :
    ∀ op ∈ (blockForMat s obj proto absT m).2,
      (∃ q c, op = FsOp.fwrite q c) ∨ ∃ q, op = FsOp.remove q ∧ lastChar q = some 'g' := by
  intro op hop
  rw [blockForMat_snd] at hop
  rcases List.mem_append.mp hop with h1 | h2
  · exact Or.inl (resolver_ops _ _ _ _ _ op h1)
  · by_cases hb : m.bakeColorTexture
    · rw [if_pos hb] at h2
      rcases List.mem_append.mp h2 with h3 | h4
      · right
        refine ⟨_, by simpa using h3, lastChar_baked absT proto _⟩
      · by_cases hk : m.bakeOk
        · rw [if_pos hk] at h4
          simp only [List.mem_singleton] at h4
          exact Or.inl ⟨_, _, h4⟩
        · rw [if_neg hk] at h4
          simp at h4
    · rw [if_neg hb] at h2
      simp at h2

theorem blocksLoop_ops (s : Settings) (obj : Obj) (proto absT : String) :
    ∀ (ms : List Mat), ∀ op ∈ (blocksLoop s obj proto absT ms).2,
      (∃ q c, op = FsOp.fwrite q c) ∨ ∃ q, op = FsOp.remove q ∧ lastChar q = some 'g' := by
  intro ms
  induction ms with
  | nil =>
    intro op hop
    simp [blocksLoop] at hop
  | cons m rest ih =>
    intro op hop
    have hstep : (blocksLoop s obj proto absT (m :: rest)).2 =
        (blockForMat s obj proto absT m).2 ++ (blocksLoop s obj proto absT rest).2 := rfl
    rw [hstep] at hop
    rcases List.mem_append.mp hop with h1 | h2
    · exact blockForMat_ops s obj proto absT m op h1
    · exact ih op h2

theorem blocksAndOps_snd (s : Settings) (obj : Obj) (proto absT : String) :
    (blocksAndOps s obj proto absT).2 =
      if (iter_unique_materials_in_order obj).isEmpty then
        (resolve_defold_material_and_texture_for_material s none absT
          s.texturesDir (some obj)).2
      else (blocksLoop s obj proto absT (iter_unique_materials_in_order obj)).2 := by
  by_cases h : (iter_unique_materials_in_order obj).isEmpty <;> simp [blocksAndOps, h]

theorem blocksAndOps_ops (s : Settings) (obj : Obj) (proto absT : String) :
    ∀ op ∈ (blocksAndOps s obj proto absT).2,
      (∃ q c, op = FsOp.fwrite q c) ∨ ∃ q, op = FsOp.remove q ∧ lastChar q = some 'g' := by
  intro op hop
  rw [blocksAndOps_snd] at hop
  by_cases h : (iter_unique_materials_in_order obj).isEmpty
  · rw [if_pos h] at hop
    exact Or.inl (resolver_ops _ _ _ _ _ op hop)
  · rw [if_neg h] at hop
    exact blocksLoop_ops s obj proto absT _ op hop

theorem opsFor_eq_front (s : Settings) (obj : Obj) (proto : String) :
    opsFor s obj proto = frontOps s obj proto ++
      [FsOp.writeIfAbsent (goPathOf s proto) (goTextOf s obj proto)] := rfl

theorem frontOps_classify (s : Settings) (obj : Obj) (proto : String) :
    ∀ op ∈ frontOps s obj proto,
      (∃ q c, op = FsOp.fwrite q c) ∨ ∃ q, op = FsOp.remove q ∧ lastChar q ≠ some 'o' := by
  intro op hop
  unfold frontOps at hop
  simp only [List.mem_append] at hop
  rcases hop with ((((h | h) | h) | h) | h)
  · unfold cleanupOpsFor at h
    simp only [List.mem_cons, List.not_mem_nil, or_false] at h
    rcases h with h | h | h | h <;> subst h <;> right
    · exact ⟨_, rfl, by rw [lastChar_pjoin_ext _ _ _ (by decide : (".glb" : String).data ≠ [])]; decide⟩
    · exact ⟨_, rfl, by rw [lastChar_pjoin_ext _ _ _ (by decide : (".model" : String).data ≠ [])]; decide⟩
    · exact ⟨_, rfl, by rw [lastChar_pjoin_ext _ _ _ (by decide : (".convexshape" : String).data ≠ [])]; decide⟩
    · exact ⟨_, rfl, by rw [lastChar_pjoin_ext _ _ _ (by decide : (".collisionobject" : String).data ≠ [])]; decide⟩
  · simp only [List.mem_singleton] at h
    subst h
    exact Or.inl ⟨_, _, rfl⟩
  · rcases blocksAndOps_ops s obj proto _ op h with h1 | ⟨q, hq, hlq⟩
    · exact Or.inl h1
    · exact Or.inr ⟨q, hq, by rw [hlq]; decide⟩
  · simp only [List.mem_singleton] at h
    subst h
    exact Or.inl ⟨_, _, rfl⟩
  · unfold colOpsFor at h
    split at h
    · rcases List.mem_append.mp h with h3 | h4
      · unfold export_convex_hull_points at h3
        split at h3
        · simp at h3
        · simp only [List.mem_singleton] at h3
          subst h3
          exact Or.inl ⟨_, _, rfl⟩
      · simp only [List.mem_singleton] at h4
        subst h4
        exact Or.inl ⟨_, _, rfl⟩
    · simp at h

theorem c1s_go (s : Settings) (obj : Obj) (proto : String) (fs : FS)
    (hno : ((opsFor s obj proto).all fun op => !(opWritesPath (goPathOf s proto) op)) = true) :
    runFsOps fs (opsFor s obj proto) (goPathOf s proto) =
      some ((fs (goPathOf s proto)).getD (goTextOf s obj proto)) := by
  rw [runFsOps_pointwise, opsFor_eq_front, foldAt_append]
  have hfront : foldAt (goPathOf s proto) (fs (goPathOf s proto)) (frontOps s obj proto) =
      fs (goPathOf s proto) := by
    apply foldAt_untouched
    intro op hop
    rcases frontOps_classify s obj proto op hop with ⟨q, c, rfl⟩ | ⟨q, rfl, hlq⟩
    · have hmem : FsOp.fwrite q c ∈ opsFor s obj proto := by
        rw [opsFor_eq_front]
        exact List.mem_append_left _ hop
      have hall := List.all_eq_true.mp hno _ hmem
      simp only [opWritesPath, Bool.not_eq_true'] at hall
      show q ≠ goPathOf s proto
      intro hc
      rw [hc] at hall
      simp at hall
    · show q ≠ goPathOf s proto
      apply ne_of_lastChar
      rw [lastChar_goPath]
      exact hlq
  rw [hfront]
  show opAt (goPathOf s proto) (fs (goPathOf s proto))
    (FsOp.writeIfAbsent (goPathOf s proto) (goTextOf s obj proto)) = _
  simp [opAt]

theorem c1s_model (s : Settings) (obj : Obj) (proto : String) (fs : FS) :
    runFsOps fs (opsFor s obj proto) (modelPathOf s proto) =
      some (modelTextOf s obj proto) := by
  rw [runFsOps_pointwise]
  have hsplit : opsFor s obj proto =
      (cleanupOpsFor s proto ++
       [FsOp.fwrite (pjoin (pjoin s.projectRoot s.modelsDir) (proto ++ ".glb")) obj.glbContent] ++
       (blocksAndOps s obj proto (pjoin s.projectRoot s.texturesDir)).2) ++
      ([FsOp.fwrite (modelPathOf s proto) (modelTextOf s obj proto)] ++
       (colOpsFor s obj proto ++
        [FsOp.writeIfAbsent (goPathOf s proto) (goTextOf s obj proto)])) := by
    unfold opsFor
    simp [List.append_assoc]
  rw [hsplit, foldAt_append, foldAt_append]
  have hmw : ∀ w, foldAt (modelPathOf s proto) w
      [FsOp.fwrite (modelPathOf s proto) (modelTextOf s obj proto)] =
      some (modelTextOf s obj proto) := by
    intro w
    show opAt (modelPathOf s proto) w
      (FsOp.fwrite (modelPathOf s proto) (modelTextOf s obj proto)) = _
    simp [opAt]
  rw [hmw]
  apply foldAt_untouched
  intro op hop
  rcases List.mem_append.mp hop with h1 | h2
  · unfold colOpsFor at h1
    split at h1
    · rcases List.mem_append.mp h1 with h3 | h4
      · unfold export_convex_hull_points at h3
        split at h3
        · simp at h3
        · simp only [List.mem_singleton] at h3
          subst h3
          show pjoin (pjoin s.projectRoot s.collisionsDir) (proto ++ ".convexshape") ≠
            modelPathOf s proto
          apply ne_of_lastChar
          rw [lastChar_pjoin_ext _ _ _ (by decide : (".convexshape" : String).data ≠ []),
            lastChar_modelPath]
          decide
      · simp only [List.mem_singleton] at h4
        subst h4
        show pjoin (pjoin s.projectRoot s.collisionsDir) (proto ++ ".collisionobject") ≠
          modelPathOf s proto
        apply ne_of_lastChar
        rw [lastChar_pjoin_ext _ _ _ (by decide : (".collisionobject" : String).data ≠ []),
          lastChar_modelPath]
        decide
    · simp at h1
  · simp only [List.mem_singleton] at h2
    subst h2
    show goPathOf s proto ≠ modelPathOf s proto
    apply ne_of_lastChar
    rw [lastChar_goPath, lastChar_modelPath]
    decide

theorem export_single_ok (s : Settings) (obj : Obj) (ops : List FsOp) (proto : String)
    (h : export_single_prototype_assets s obj = (ops, Except.ok proto)) :
    ops = opsFor s obj proto := by
  unfold export_single_prototype_assets at h
  split at h
  · simp at h
  · split at h
    · simp at h
    · split at h
      · simp at h
      · rename_i raw heq
        obtain ⟨h1, h2⟩ := Prod.mk.injEq _ _ _ _ ▸ h
        have h3 : sanitize_id raw = proto := by
          exact (Except.ok.injEq _ _).mp h2
        rw [← h1, h3]

/-- C1 (amended): after a successful run of the prototype exporter, the
model file always holds the freshly generated model text, and — provided
none of the run's unconditional file writes (the GLB, texture-export,
bake, model and collision writes) targets the .go path itself — the .go
file ends up holding its prior content when it existed (never deleted or
rewritten) and the generated prototype text when it did not.  The proviso
is real: with the textures directory aliased onto the prefabs directory,
a copied texture whose basename is `crate.go` overwrites the existing
prototype file. -/
theorem c1_created_once_amended (s : Settings) (obj : Obj) (ops : List FsOp)
    (proto : String) (fs : FS)
    (h : export_single_prototype_assets s obj = (ops, Except.ok proto))
    (hno : (ops.all fun op => !(opWritesPath (goPathOf s proto) op)) = true) :
    runFsOps fs ops (modelPathOf s proto) = some (modelTextOf s obj proto) ∧
    runFsOps fs ops (goPathOf s proto) =
      some ((fs (goPathOf s proto)).getD (goTextOf s obj proto)) := by
  have he := export_single_ok s obj ops proto h
  subst he
  exact ⟨c1s_model s obj proto fs, c1s_go s obj proto fs hno⟩

theorem c1_created_once_witness :
    runFsOps c1wFs (opsFor baseSettings (plainObj "crate") "crate")
        (modelPathOf baseSettings "crate") =
      some (modelTextOf baseSettings (plainObj "crate") "crate") ∧
    runFsOps c1wFs (opsFor baseSettings (plainObj "crate") "crate")
        (goPathOf baseSettings "crate") = some "MANUAL EDIT" := by
  have hres := c1_created_once_amended baseSettings (plainObj "crate")
    (opsFor baseSettings (plainObj "crate") "crate") "crate" c1wFs rfl (by decide)
  refine ⟨hres.1, ?_⟩
  rw [hres.2]
  decide

/-- The unamended created-once invariant is false: with the textures
directory set to the prefabs directory and a source texture named
crate.go on disk, a successful run reports prototype `crate` and leaves
the pre-existing, manually edited crate.go holding the copied texture
bytes. -/
theorem c1_created_once_counterexample :
    (export_single_prototype_assets c1xS c1xObj).2 = Except.ok "crate" ∧
    c1wFs (goPathOf c1xS "crate") = some "MANUAL EDIT" ∧
    runFsOps c1wFs (export_single_prototype_assets c1xS c1xObj).1
        (goPathOf c1xS "crate") = some "TEXTURE BYTES" :=
  ⟨rfl, by decide, by decide⟩

/-- C3: within one exported scene, instance ids are unique: each prototype group
contributes ids `proto_001`, `proto_002`, … numbered from 1 in object order, and
since group keys are distinct and the counter is part of the id, no two instances
in the collection share an id. Illustrated on three objects sharing prototype
id `crate`. -/
theorem c3_instance_ids :
    (∀ (s : Settings) (objects : List Obj),
      ((sceneInstances s objects).map Inst.id).Nodup) ∧
    (instsAux "crate" "/assets/prefabs/crate.go"
        [plainObj "crate", plainObj "crate", plainObj "crate"] 0).map Inst.id =
      ["crate_001", "crate_002", "crate_003"] := by
  refine ⟨sceneIds_nodup, by decide⟩

end Reforge
